import Mathlib

/-!
# Pod network chaos helper (`chaoslib/litmus/network-chaos/helper/netem.go`)

A shallow embedding of the helper that resolves a container to a PID, programs
`tc`/`netem` rules inside its network namespace and reverts them.

Conventions of the embedding:

* a Go `string` / `[]byte` holding text is a `List Char` (`GoString`);
* a Go `int` is an `Int`; where the 64-bit range matters it is stated;
* a Go function that may return, call `os.Exit` or hit a runtime panic returns
  an `Outcome`; a `(T, error)` result is an `Except GoError T`;
* the outside world (sub-processes, the cluster API, the signal channel) is a
  `World` of oracles, and the effects a function performs are appended to a
  trace of `Effect`s that is passed through explicitly;
* logging calls have no influence on control flow and are left out.
-/

namespace Netem

/-! ## Strings -/

/-- Text held by a Go `string`. -/
abbrev GoString := List Char

/-- Scanner behind `strings.Split` for a non-empty separator: `skip` counts the
characters of a separator occurrence still to be consumed, `cur` is the current
piece in reverse. -/
def splitGo (sep : GoString) : GoString → Nat → GoString → List GoString
  | [], _, cur => [cur.reverse]
  | _ :: cs, k + 1, cur => splitGo sep cs k cur
  | c :: cs, 0, cur =>
    if sep.isPrefixOf (c :: cs) then cur.reverse :: splitGo sep cs (sep.length - 1) []
    else splitGo sep cs 0 (c :: cur)

/-- Go `strings.Split(s, sep)` for a non-empty `sep`: the pieces of `s` between
the non-overlapping occurrences of `sep`, found left to right. -/
def Split (s sep : GoString) : List GoString := splitGo sep s 0 []

/-- Go `strings.Contains(s, substr)`. -/
def Contains : GoString → GoString → Bool
  | [], sub => sub.isEmpty
  | c :: cs, sub => sub.isPrefixOf (c :: cs) || Contains cs sub

/-! ## Removing duplicate destination IPs (`InjectChaos`, lines 308-323) -/

/-- The inner loop `for j := range uniqueIps`: `isPresent` starts `false` and is
set whenever an element equal to `ip` is met. -/
def isPresent (ip : GoString) (uniqueIps : List GoString) : Bool :=
  uniqueIps.foldl (fun present u => if ip = u then true else present) false

/-- One iteration of the outer loop `for i := range ips`. -/
def dedupStep (uniqueIps : List GoString) (ip : GoString) : List GoString :=
  if !isPresent ip uniqueIps then uniqueIps ++ [ip] else uniqueIps

/-- The list `uniqueIps` built from `ips`, starting from the nil slice. -/
def uniqueIpsOf (ips : List GoString) : List GoString :=
  ips.foldl dedupStep []

/-- The list `uniqueIps` that `InjectChaos` builds from `DESTINATION_IPS`. -/
def uniqueIps (destinationIPs : GoString) : List GoString :=
  uniqueIpsOf (Split destinationIPs ",".toList)

/-- Position of the first occurrence of `x` in `l`; the length of `l` when `x`
does not occur. Used to state the order of first occurrence. -/
def firstIndex (x : GoString) : List GoString → Nat
  | [] => 0
  | y :: ys => if x = y then 0 else firstIndex x ys + 1

/-! ## Numbers -/

/-- The ASCII digit for `d < 10`. -/
def digitChar (d : Nat) : Char := Char.ofNat (48 + d)

/-- Decimal digits of `n`, most significant first, pushed in front of `acc`. -/
def natDigits : Nat → Nat → GoString → GoString
  | 0, _, acc => acc
  | fuel + 1, n, acc =>
    if n < 10 then digitChar n :: acc
    else natDigits fuel (n / 10) (digitChar (n % 10) :: acc)

/-- The text that the verbs `%d` and `%v` of `fmt.Sprintf` give for an `int`. -/
def formatInt (i : Int) : GoString :=
  if i < 0 then '-' :: natDigits (i.natAbs + 1) i.natAbs []
  else natDigits (i.toNat + 1) i.toNat []

/-- Value of an ASCII digit, `none` for any other character. -/
def digitVal (c : Char) : Option Nat :=
  if 48 ≤ c.toNat ∧ c.toNat ≤ 57 then some (c.toNat - 48) else none

/-- Value of a run of ASCII digits read after the value `acc`; `none` when a
character is not a digit. -/
def digitsVal : GoString → Nat → Option Nat
  | [], acc => some acc
  | c :: cs, acc =>
    match digitVal c with
    | some d => digitsVal cs (acc * 10 + d)
    | none => none

/-- Base-10 syntax accepted by `strconv.ParseInt(s, 10, _)` and `strconv.Atoi`:
an optional sign and at least one digit. Gives the sign (`true` for `-`) and the
magnitude. -/
def parseDecimal (s : GoString) : Option (Bool × Nat) :=
  match s with
  | [] => none
  | c :: cs =>
    if c = '-' then
      (match cs with
       | [] => none
       | _ :: _ => (digitsVal cs 0).map (fun m => (true, m)))
    else if c = '+' then
      (match cs with
       | [] => none
       | _ :: _ => (digitsVal cs 0).map (fun m => (false, m)))
    else (digitsVal (c :: cs) 0).map (fun m => (false, m))

/-- Largest value of a 64-bit Go `int`. -/
def maxInt64 : Int := 9223372036854775807

/-- Smallest value of a 64-bit Go `int`. -/
def minInt64 : Int := -9223372036854775808

/-- Go errors that this program can meet. -/
inductive GoError
  | exec (msg : GoString)
  | api (msg : GoString)
  | jsonSyntaxError
  | unmarshalTypeError
  | numError
  | errorf (msg : GoString)
  deriving DecidableEq, Repr

/-- Go `strconv.Atoi`: on a syntax error the value is `0`, on a range error it
is the nearest bound of `int`; the second component is the error. -/
def Atoi (s : GoString) : Int × Option GoError :=
  match parseDecimal s with
  | none => (0, some GoError.numError)
  | some (neg, m) =>
    if neg then
      (if (m : Int) > 9223372036854775808 then (minInt64, some GoError.numError)
       else (-(m : Int), none))
    else
      (if (m : Int) > maxInt64 then (maxInt64, some GoError.numError)
       else ((m : Int), none))

/-- Go `strconv.ParseInt(s, 10, 64)` as `encoding/json` uses it for an `int`
field: `none` on a syntax or range error. -/
def parseInt64 (s : GoString) : Option Int :=
  match Atoi s with
  | (n, none) => some n
  | (_, some _) => none

/-! ## Results of Go functions and the outside world -/

/-- How a call of a Go function ends. -/
inductive Outcome (α : Type)
  | ret (a : α)
  | exit (code : Int)
  | panic
  deriving DecidableEq, Repr

/-- Combined output and error of `exec.Command(...).CombinedOutput()`. -/
structure CmdResult where
  out : GoString
  err : Option GoError
  deriving DecidableEq, Repr

/-- Effects on the outside world, in the order they are performed. -/
inductive Effect
  | command (name : GoString) (args : List GoString)
  | getPod (ns name : GoString)
  | event (reason msg type : GoString)
  | goAbortWatcher (pid : Int)
  | waitForDuration (seconds : Int)
  | sleep (seconds : Int)
  deriving DecidableEq, Repr

/-- One entry of `pod.Status.ContainerStatuses`. -/
structure ContainerStatus where
  Name : GoString
  ContainerID : GoString
  deriving DecidableEq, Repr

/-- The part of a pod object that the helper reads. -/
structure Pod where
  ContainerStatuses : List ContainerStatus
  deriving DecidableEq, Repr

/-- The outside world. Every oracle receives the effects performed so far, so an
answer may depend on the history. -/
structure World where
  getenv : GoString → GoString
  run : List Effect → GoString → List GoString → CmdResult
  getPod : List Effect → GoString → GoString → Except GoError Pod
  injectSignal : List Effect → Bool

/-- The fields of `experimentTypes.ExperimentDetails` set by `GetENV`. -/
structure ExperimentDetails where
  ExperimentName : GoString
  AppNS : GoString
  TargetContainer : GoString
  TargetPods : GoString
  AppLabel : GoString
  ChaosDuration : Int
  ChaosNamespace : GoString
  EngineName : GoString
  ChaosUID : GoString
  ChaosPodName : GoString
  ContainerRuntime : GoString
  NetworkInterface : GoString
  SocketPath : GoString
  DestinationIPs : GoString

/-- Go `exec.Command(name, args...).CombinedOutput()`: the command is recorded
and the world answers. -/
def CombinedOutput (w : World) (t : List Effect) (name : GoString) (args : List GoString) :
    CmdResult × List Effect :=
  (w.run t name args, t ++ [Effect.command name args])

/-- The command `exec.Command("/bin/bash", "-c", tc)`, as an effect. -/
def bashEffect (tc : GoString) : Effect :=
  Effect.command "/bin/bash".toList ["-c".toList, tc]

/-! ## Injection and revert (`InjectChaos`, `Killnetem`) -/

def qdiscNotFound : GoString := "Cannot delete qdisc with handle of zero".toList

def qdiscNoFileFound : GoString := "RTNETLINK answers: No such file or directory".toList

/-- The command line of the global program (line 298). -/
def globalCmd (pid : Int) (iface netemCommands : GoString) : GoString :=
  "sudo nsenter -t ".toList ++ formatInt pid ++ " -n tc qdisc replace dev ".toList ++ iface
    ++ " root netem ".toList ++ netemCommands

/-- The command line `priority` (line 327). -/
def priorityCmd (pid : Int) (iface : GoString) : GoString :=
  "sudo nsenter -t ".toList ++ formatInt pid ++ " -n tc qdisc replace dev ".toList ++ iface
    ++ " root handle 1: prio".toList

/-- The command line `traffic` (line 338). -/
def trafficCmd (pid : Int) (iface netemCommands : GoString) : GoString :=
  "sudo nsenter -t ".toList ++ formatInt pid ++ " -n tc qdisc replace dev ".toList ++ iface
    ++ " parent 1:3 netem ".toList ++ netemCommands

/-- The command line of one filter (line 352). -/
def filterCmd (pid : Int) (iface ip : GoString) : GoString :=
  "sudo nsenter -t ".toList ++ formatInt pid ++ " -n tc filter add dev ".toList ++ iface
    ++ " protocol ip parent 1:0 prio 3 u32 match ip dst ".toList ++ ip
    ++ " flowid 1:3".toList

/-- The loop `for _, ip := range uniqueIps` (lines 347-361): the error returned
from inside the loop, or `none` when the loop runs to its end. -/
def addFilters (w : World) (pid : Int) (iface : GoString) :
    List GoString → List Effect → Option GoError × List Effect
  | [], t => (none, t)
  | ip :: ips, t =>
    if !Contains ip ":".toList then
      match CombinedOutput w t "/bin/bash".toList ["-c".toList, filterCmd pid iface ip] with
      | (r, t1) =>
        match r.err with
        | some e => (some e, t1)
        | none => addFilters w pid iface ips t1
    else addFilters w pid iface ips t

/-- Go `InjectChaos`. The returned `Option GoError` is the Go `error` (`none` is
`nil`). -/
def InjectChaos (w : World) (experimentDetails : ExperimentDetails) (pid : Int)
    (t : List Effect) : Outcome (Option GoError) × List Effect :=
  let netemCommands := w.getenv "NETEM_COMMAND".toList
  let destinationIPs := w.getenv "DESTINATION_IPS".toList
  if w.injectSignal t then (Outcome.exit 1, t)
  else if destinationIPs = [] then
    match CombinedOutput w t "/bin/bash".toList
        ["-c".toList, globalCmd pid experimentDetails.NetworkInterface netemCommands] with
    | (r, t1) =>
      match r.err with
      | some e => (Outcome.ret (some e), t1)
      | none => (Outcome.ret none, t1)
  else
    let uniq := uniqueIps destinationIPs
    match CombinedOutput w t "/bin/bash".toList
        ["-c".toList, priorityCmd pid experimentDetails.NetworkInterface] with
    | (r, t1) =>
      match r.err with
      | some e => (Outcome.ret (some e), t1)
      | none =>
        match CombinedOutput w t1 "/bin/bash".toList
            ["-c".toList, trafficCmd pid experimentDetails.NetworkInterface netemCommands] with
        | (r2, t2) =>
          match r2.err with
          | some e => (Outcome.ret (some e), t2)
          | none =>
            match addFilters w pid experimentDetails.NetworkInterface uniq t2 with
            | (some e, t3) => (Outcome.ret (some e), t3)
            | (none, t3) => (Outcome.ret none, t3)

/-- The command line of the revert (line 370). -/
def killCmd (PID : Int) : GoString :=
  "sudo nsenter -t ".toList ++ formatInt PID ++ " -n tc qdisc delete dev eth0 root".toList

/-- Go `Killnetem`. -/
def Killnetem (w : World) (PID : Int) (t : List Effect) : Option GoError × List Effect :=
  match CombinedOutput w t "/bin/bash".toList ["-c".toList, killCmd PID] with
  | (r, t1) =>
    match r.err with
    | some e =>
      if Contains r.out qdiscNotFound || Contains r.out qdiscNoFileFound then (none, t1)
      else (some e, t1)
    | none => (none, t1)

/-! ## JSON documents (`encoding/json`)

`json.Unmarshal` first checks that the whole input is one well-formed JSON text
and only then stores its values into the destination. The first part is
`parseJSON`, the second the `decode...` functions, one per destination type. -/

/-- A JSON value as written: a number keeps its literal, an object keeps its
members in order, repeated keys included. -/
inductive JSON
  | null
  | bool (b : Bool)
  | num (lit : GoString)
  | str (s : GoString)
  | arr (elems : List JSON)
  | obj (members : List (GoString × JSON))

instance : Inhabited JSON := ⟨JSON.null⟩

/-- JSON white space. -/
def isSpaceJSON (c : Char) : Bool :=
  c.toNat == 32 || c.toNat == 9 || c.toNat == 10 || c.toNat == 13

/-- Drops leading JSON white space. -/
def skipSpace : GoString → GoString
  | [] => []
  | c :: cs => if isSpaceJSON c then skipSpace cs else c :: cs

/-- Value of a hexadecimal digit. -/
def hexVal (c : Char) : Option Nat :=
  let n := c.toNat
  if 48 ≤ n ∧ n ≤ 57 then some (n - 48)
  else if 97 ≤ n ∧ n ≤ 102 then some (n - 87)
  else if 65 ≤ n ∧ n ≤ 70 then some (n - 55)
  else none

/-- Four hexadecimal digits at the head of the input, as in `getu4`. -/
def hex4 : GoString → Option (Nat × GoString)
  | a :: b :: c :: d :: rest =>
    match hexVal a, hexVal b, hexVal c, hexVal d with
    | some x, some y, some z, some u => some (((x * 16 + y) * 16 + z) * 16 + u, rest)
    | _, _, _, _ => none
  | _ => none

/-- The low half of a surrogate pair written `\uXXXX` at the head of the input. -/
def lowSurrogate : GoString → Option (Nat × GoString)
  | b :: u :: rest =>
    if b.toNat == 92 && u.toNat == 117 then
      match hex4 rest with
      | some (n, rest2) => if 56320 ≤ n ∧ n < 57344 then some (n, rest2) else none
      | none => none
    else none
  | _ => none

/-- Reads a string after its opening quote, up to the closing quote; `acc` is
the text read so far in reverse. An escape `\uXXXX` of half a surrogate pair
gives U+FFFD. -/
def scanString : Nat → GoString → GoString → Option (GoString × GoString)
  | 0, _, _ => none
  | _ + 1, [], _ => none
  | fuel + 1, c :: cs, acc =>
    if c.toNat == 34 then some (acc.reverse, cs)
    else if c.toNat == 92 then
      match cs with
      | [] => none
      | e :: rest =>
        if e.toNat == 34 then scanString fuel rest ('"' :: acc)
        else if e.toNat == 92 then scanString fuel rest ('\\' :: acc)
        else if e.toNat == 47 then scanString fuel rest ('/' :: acc)
        else if e.toNat == 98 then scanString fuel rest (Char.ofNat 8 :: acc)
        else if e.toNat == 102 then scanString fuel rest (Char.ofNat 12 :: acc)
        else if e.toNat == 110 then scanString fuel rest (Char.ofNat 10 :: acc)
        else if e.toNat == 114 then scanString fuel rest (Char.ofNat 13 :: acc)
        else if e.toNat == 116 then scanString fuel rest (Char.ofNat 9 :: acc)
        else if e.toNat == 117 then
          match hex4 rest with
          | none => none
          | some (n, rest2) =>
            if 55296 ≤ n ∧ n < 56320 then
              match lowSurrogate rest2 with
              | some (m, rest3) =>
                scanString fuel rest3
                  (Char.ofNat (65536 + (n - 55296) * 1024 + (m - 56320)) :: acc)
              | none => scanString fuel rest2 (Char.ofNat 65533 :: acc)
            else if 56320 ≤ n ∧ n < 57344 then scanString fuel rest2 (Char.ofNat 65533 :: acc)
            else scanString fuel rest2 (Char.ofNat n :: acc)
        else none
    else if c.toNat < 32 then none
    else scanString fuel cs (c :: acc)

/-- Splits off the longest run of ASCII digits. -/
def spanDigits : GoString → GoString × GoString
  | [] => ([], [])
  | c :: cs =>
    if 48 ≤ c.toNat ∧ c.toNat ≤ 57 then
      match spanDigits cs with
      | (ds, rest) => (c :: ds, rest)
    else ([], c :: cs)

/-- The integer part of a number: `0`, or a non-zero digit and more digits. -/
def scanIntPart : GoString → Option (GoString × GoString)
  | [] => none
  | c :: cs =>
    if c.toNat == 48 then some ([c], cs)
    else if 49 ≤ c.toNat ∧ c.toNat ≤ 57 then
      match spanDigits cs with
      | (ds, rest) => some (c :: ds, rest)
    else none

/-- The optional fraction of a number. -/
def scanFrac : GoString → Option (GoString × GoString)
  | [] => some ([], [])
  | c :: cs =>
    if c.toNat == 46 then
      match spanDigits cs with
      | ([], _) => none
      | (d :: ds, rest) => some (c :: d :: ds, rest)
    else some ([], c :: cs)

/-- The digits of an exponent, at least one. -/
def scanExpDigits (pre : GoString) (s : GoString) : Option (GoString × GoString) :=
  match spanDigits s with
  | ([], _) => none
  | (d :: ds, rest) => some (pre ++ d :: ds, rest)

/-- The optional exponent of a number. -/
def scanExp : GoString → Option (GoString × GoString)
  | [] => some ([], [])
  | c :: cs =>
    if c.toNat == 101 || c.toNat == 69 then
      match cs with
      | [] => none
      | g :: rest =>
        if g.toNat == 43 || g.toNat == 45 then scanExpDigits [c, g] rest
        else scanExpDigits [c] (g :: rest)
    else some ([], c :: cs)

/-- A number literal at the head of the input. -/
def scanNumber (s : GoString) : Option (GoString × GoString) :=
  let signed : GoString × GoString :=
    match s with
    | [] => ([], [])
    | c :: cs => if c.toNat == 45 then ([c], cs) else ([], c :: cs)
  match scanIntPart signed.2 with
  | none => none
  | some (ip, r1) =>
    match scanFrac r1 with
    | none => none
    | some (fp, r2) =>
      match scanExp r2 with
      | none => none
      | some (ep, r3) => some (signed.1 ++ ip ++ fp ++ ep, r3)

/-- Drops the literal `word` when the input starts with it. -/
def dropWord (word s : GoString) : Option GoString :=
  if word.isPrefixOf s then some (s.drop word.length) else none

/-- The deepest nesting of arrays and objects that `encoding/json` accepts
(`maxNestingDepth`, Go 1.15 and later); a deeper text is a syntax error. -/
def maxNestingDepth : Nat := 10000

mutual

/-- One JSON value at the head of the input, after white space; `depth` is the
number of arrays and objects that are open around it. -/
def parseValue : Nat → Nat → GoString → Option (JSON × GoString)
  | 0, _, _ => none
  | fuel + 1, depth, s =>
    match skipSpace s with
    | [] => none
    | c :: cs =>
      if c.toNat == 110 then (dropWord "null".toList (c :: cs)).map (fun r => (JSON.null, r))
      else if c.toNat == 116 then
        (dropWord "true".toList (c :: cs)).map (fun r => (JSON.bool true, r))
      else if c.toNat == 102 then
        (dropWord "false".toList (c :: cs)).map (fun r => (JSON.bool false, r))
      else if c.toNat == 34 then
        (scanString (cs.length + 1) cs []).map (fun p => (JSON.str p.1, p.2))
      else if c.toNat == 91 then
        if depth < maxNestingDepth then
          match skipSpace cs with
          | [] => none
          | d :: ds =>
            if d.toNat == 93 then some (JSON.arr [], ds)
            else (parseElems fuel (depth + 1) (d :: ds) []).map (fun p => (JSON.arr p.1, p.2))
        else none
      else if c.toNat == 123 then
        if depth < maxNestingDepth then
          match skipSpace cs with
          | [] => none
          | d :: ds =>
            if d.toNat == 125 then some (JSON.obj [], ds)
            else (parseMembers fuel (depth + 1) (d :: ds) []).map (fun p => (JSON.obj p.1, p.2))
        else none
      else (scanNumber (c :: cs)).map (fun p => (JSON.num p.1, p.2))

/-- The elements of an array from the head of an element on; `acc` holds the
elements read so far in reverse, `depth` counts the open arrays and objects,
this array included. -/
def parseElems : Nat → Nat → GoString → List JSON → Option (List JSON × GoString)
  | 0, _, _, _ => none
  | fuel + 1, depth, s, acc =>
    match parseValue fuel depth s with
    | none => none
    | some (v, rest) =>
      match skipSpace rest with
      | [] => none
      | c :: cs =>
        if c.toNat == 93 then some ((v :: acc).reverse, cs)
        else if c.toNat == 44 then parseElems fuel depth cs (v :: acc)
        else none

/-- The members of an object from the head of a key on; `acc` holds the members
read so far in reverse, `depth` counts the open arrays and objects, this object
included. -/
def parseMembers : Nat → Nat → GoString → List (GoString × JSON) →
    Option (List (GoString × JSON) × GoString)
  | 0, _, _, _ => none
  | fuel + 1, depth, s, acc =>
    match skipSpace s with
    | [] => none
    | q :: qs =>
      if q.toNat == 34 then
        match scanString (qs.length + 1) qs [] with
        | none => none
        | some (key, r1) =>
          match skipSpace r1 with
          | [] => none
          | colon :: r2 =>
            if colon.toNat == 58 then
              match parseValue fuel depth r2 with
              | none => none
              | some (v, r3) =>
                match skipSpace r3 with
                | [] => none
                | c :: cs =>
                  if c.toNat == 125 then some (((key, v) :: acc).reverse, cs)
                  else if c.toNat == 44 then parseMembers fuel depth cs ((key, v) :: acc)
                  else none
            else none
      else none

end

/-- The JSON text `j` as a value; `none` is a `*json.SyntaxError`. -/
def parseJSON (j : GoString) : Option JSON :=
  match parseValue (2 * j.length + 4) 0 j with
  | none => none
  | some (v, rest) => if (skipSpace rest).isEmpty then some v else none

/-- The `*json.UnmarshalTypeError` that `Unmarshal` reports when a JSON value
does not fit its destination. -/
def typeError {α : Type} : Except GoError α := Except.error GoError.unmarshalTypeError

/-- Storing a JSON value into an `int`: `null` leaves it as it is, a number must
be a base-10 literal in the 64-bit range. -/
def decodeInt (cur : Int) : JSON → Except GoError Int
  | JSON.null => Except.ok cur
  | JSON.num lit =>
    match parseInt64 lit with
    | some n => Except.ok n
    | none => typeError
  | _ => typeError

/-- Storing a JSON value into a `string`. -/
def decodeString (cur : GoString) : JSON → Except GoError GoString
  | JSON.null => Except.ok cur
  | JSON.str s => Except.ok s
  | _ => typeError

/-- Case folding of one character of an object key: ASCII letters fold to upper
case, and the two non-ASCII characters that fold onto ASCII letters, U+017F
(long s) and U+212A (Kelvin sign), fold to `S` and `K`. -/
def foldRune (c : Char) : Char :=
  if 97 ≤ c.toNat ∧ c.toNat ≤ 122 then Char.ofNat (c.toNat - 32)
  else if c.toNat == 383 then 'S'
  else if c.toNat == 8490 then 'K'
  else c

/-- Case-insensitive match of an object key with a field name. -/
def equalFold (name key : GoString) : Bool :=
  name.map foldRune == key.map foldRune

/-- Index of the first element satisfying `p`. -/
def findIndex (p : GoString → Bool) : List GoString → Option Nat
  | [] => none
  | x :: xs => if p x then some 0 else (findIndex p xs).map (fun i => i + 1)

/-- The field that an object key is stored into: the field whose name is the
key, else the first field whose name matches the key case-insensitively. -/
def findField (fields : List GoString) (key : GoString) : Option Nat :=
  match findIndex (fun name => name == key) fields with
  | some i => some i
  | none => findIndex (fun name => equalFold name key) fields

/-- Storing a JSON value into a struct with the given field names: the members
of an object are stored in order, a member whose key matches no field is
skipped, and `null` leaves the struct as it is. -/
def decodeStruct {σ : Type} (fields : List GoString)
    (setField : Nat → σ → JSON → Except GoError σ) (cur : σ) : JSON → Except GoError σ
  | JSON.null => Except.ok cur
  | JSON.obj members =>
    members.foldlM
      (fun d m =>
        match findField fields m.1 with
        | some i => setField i d m.2
        | none => Except.ok d)
      cur
  | _ => typeError

/-- A Go slice as `encoding/json` works on it: its elements (`elems`) and the
cells of its backing array beyond its length (`spare`), which still hold what an
earlier decoding stored in them. -/
structure GoSlice (σ : Type) where
  elems : List σ
  spare : List σ
  deriving DecidableEq, Repr

/-- Decoding the elements of an array one by one into the cells of the backing
array: element `i` is decoded into cell `i` as it stands, and into a zero value
where the backing array ends and the slice has to grow. -/
def decodeCells {σ : Type} (zero : σ) (decodeElem : σ → JSON → Except GoError σ) :
    List σ → List JSON → Except GoError (List σ)
  | _, [] => Except.ok []
  | cells, e :: es =>
    match decodeElem (cells.headD zero) e with
    | Except.error err => Except.error err
    | Except.ok x =>
      match decodeCells zero decodeElem cells.tail es with
      | Except.error err => Except.error err
      | Except.ok xs => Except.ok (x :: xs)

/-- Storing a JSON value into a slice. The elements of an array are decoded
into the elements the slice already holds, then into the spare cells, then into
fresh zero values, and the length becomes the number of elements; what the
backing array holds beyond stays there. The empty array gives a fresh empty
slice and `null` the nil slice. -/
def decodeSlice {σ : Type} (zero : σ) (decodeElem : σ → JSON → Except GoError σ)
    (cur : GoSlice σ) : JSON → Except GoError (GoSlice σ)
  | JSON.null => Except.ok ⟨[], []⟩
  | JSON.arr [] => Except.ok ⟨[], []⟩
  | JSON.arr (e :: es) =>
    match decodeCells zero decodeElem (cur.elems ++ cur.spare) (e :: es) with
    | Except.error err => Except.error err
    | Except.ok xs => Except.ok ⟨xs, (cur.elems ++ cur.spare).drop (es.length + 1)⟩
  | _ => typeError

/-- Go `Namespace`. -/
structure Namespace where
  Type_ : GoString
  Path : GoString
  deriving DecidableEq, Repr

/-- Go `LinuxAttributes`. -/
structure LinuxAttributes where
  Namespaces : GoSlice Namespace
  deriving DecidableEq, Repr

/-- Go `RuntimeDetails`. -/
structure RuntimeDetails where
  Linux : LinuxAttributes
  deriving DecidableEq, Repr

/-- Go `InfoDetails`. -/
structure InfoDetails where
  RuntimeSpec : RuntimeDetails
  PID : Int
  deriving DecidableEq, Repr

/-- Go `CrictlInspectResponse`. -/
structure CrictlInspectResponse where
  Info : InfoDetails
  deriving DecidableEq, Repr

/-- Go `StateDetails`. -/
structure StateDetails where
  PID : Int
  deriving DecidableEq, Repr

/-- Go `DockerInspectResponse`. -/
structure DockerInspectResponse where
  State : StateDetails
  deriving DecidableEq, Repr

/-- The zero value of `InfoDetails`. -/
def zeroInfoDetails : InfoDetails := ⟨⟨⟨⟨[], []⟩⟩⟩, 0⟩

/-- Decoding into a `Namespace` (tags `type`, `path`). -/
def decodeNamespace (cur : Namespace) (v : JSON) : Except GoError Namespace :=
  decodeStruct ["type".toList, "path".toList]
    (fun i d x =>
      match i with
      | 0 => (decodeString d.Type_ x).map (fun s => { d with Type_ := s })
      | 1 => (decodeString d.Path x).map (fun s => { d with Path := s })
      | _ => Except.ok d)
    cur v

/-- Decoding into a `LinuxAttributes` (tag `namespaces`). -/
def decodeLinuxAttributes (cur : LinuxAttributes) (v : JSON) : Except GoError LinuxAttributes :=
  decodeStruct ["namespaces".toList]
    (fun i d x =>
      match i with
      | 0 =>
        (decodeSlice ⟨[], []⟩ decodeNamespace d.Namespaces x).map
          (fun l => { d with Namespaces := l })
      | _ => Except.ok d)
    cur v

/-- Decoding into a `RuntimeDetails` (tag `linux`). -/
def decodeRuntimeDetails (cur : RuntimeDetails) (v : JSON) : Except GoError RuntimeDetails :=
  decodeStruct ["linux".toList]
    (fun i d x =>
      match i with
      | 0 => (decodeLinuxAttributes d.Linux x).map (fun l => { d with Linux := l })
      | _ => Except.ok d)
    cur v

/-- Decoding into an `InfoDetails` (tags `runtimeSpec`, `pid`). -/
def decodeInfoDetails (cur : InfoDetails) (v : JSON) : Except GoError InfoDetails :=
  decodeStruct ["runtimeSpec".toList, "pid".toList]
    (fun i d x =>
      match i with
      | 0 => (decodeRuntimeDetails d.RuntimeSpec x).map (fun r => { d with RuntimeSpec := r })
      | 1 => (decodeInt d.PID x).map (fun n => { d with PID := n })
      | _ => Except.ok d)
    cur v

/-- Decoding into a `CrictlInspectResponse` (tag `info`). -/
def decodeCrictlInspectResponse (cur : CrictlInspectResponse) (v : JSON) :
    Except GoError CrictlInspectResponse :=
  decodeStruct ["info".toList]
    (fun i d x =>
      match i with
      | 0 => (decodeInfoDetails d.Info x).map (fun r => { d with Info := r })
      | _ => Except.ok d)
    cur v

/-- Decoding into a `StateDetails` (tag `pid`). -/
def decodeStateDetails (cur : StateDetails) (v : JSON) : Except GoError StateDetails :=
  decodeStruct ["pid".toList]
    (fun i d x =>
      match i with
      | 0 => (decodeInt d.PID x).map (fun n => { d with PID := n })
      | _ => Except.ok d)
    cur v

/-- Decoding into a `DockerInspectResponse` (tag `state`). -/
def decodeDockerInspectResponse (cur : DockerInspectResponse) (v : JSON) :
    Except GoError DockerInspectResponse :=
  decodeStruct ["state".toList]
    (fun i d x =>
      match i with
      | 0 => (decodeStateDetails d.State x).map (fun r => { d with State := r })
      | _ => Except.ok d)
    cur v

/-- Go `json.Unmarshal(j, &dst)`: a syntax error if `j` is not one JSON text,
else the value is stored by `decode` into `dst`. -/
def Unmarshal {σ : Type} (decode : σ → JSON → Except GoError σ) (j : GoString) (dst : σ) :
    Except GoError σ :=
  match parseJSON j with
  | none => Except.error GoError.jsonSyntaxError
  | some v => decode dst v

/-! ## PID resolution (`parsePIDFromJSON`) -/

/-- The loop over `resp.Info.RuntimeSpec.Linux.Namespaces` (lines 255-260),
started with the current value of `pid`. Indexing the split path at 2 panics
when it has fewer than three pieces. -/
def namespacePID : List Namespace → Int → Outcome Int
  | [], pid => Outcome.ret pid
  | namespace_ :: rest, pid =>
    if namespace_.Type_ = "network".toList then
      match (Split namespace_.Path "/".toList).get? 2 with
      | none => Outcome.panic
      | some value => namespacePID rest (Atoi value).1
    else namespacePID rest pid

/-- The check `if pid == 0` that ends `parsePIDFromJSON` (lines 277-281). -/
def checkPID (pid : Int) : Outcome (Except GoError Int) :=
  if pid = 0 then
    Outcome.ret (Except.error (GoError.errorf
      ("[cri]: No running target container found, pid: ".toList ++ formatInt pid)))
  else Outcome.ret (Except.ok pid)

/-- Go `parsePIDFromJSON`. -/
def parsePIDFromJSON (j : GoString) (runtime : GoString) : Outcome (Except GoError Int) :=
  if runtime = "docker".toList then
    match Unmarshal (decodeSlice ⟨⟨0⟩⟩ decodeDockerInspectResponse) j ⟨[], []⟩ with
    | Except.error err => Outcome.ret (Except.error err)
    | Except.ok resp =>
      match resp.elems with
      | [] => Outcome.panic
      | r0 :: _ => checkPID r0.State.PID
  else if runtime = "containerd".toList then
    match Unmarshal decodeCrictlInspectResponse j ⟨zeroInfoDetails⟩ with
    | Except.error err => Outcome.ret (Except.error err)
    | Except.ok resp =>
      match namespacePID resp.Info.RuntimeSpec.Linux.Namespaces.elems 0 with
      | Outcome.ret pid => checkPID pid
      | Outcome.exit code => Outcome.exit code
      | Outcome.panic => Outcome.panic
  else if runtime = "crio".toList then
    match Unmarshal decodeInfoDetails j zeroInfoDetails with
    | Except.error err => Outcome.ret (Except.error err)
    | Except.ok info =>
      if info.PID = 0 then
        match Unmarshal decodeCrictlInspectResponse j ⟨zeroInfoDetails⟩ with
        | Except.error err => Outcome.ret (Except.error err)
        | Except.ok resp => checkPID resp.Info.PID
      else checkPID info.PID
  else
    Outcome.ret (Except.error (GoError.errorf
      ("[cri]: No supported container runtime, runtime: ".toList ++ runtime)))

/-! ## Container lookup and the lifecycle (`GetContainerID`, `GetPID`,
`PreparePodNetworkChaos`) -/

/-- Go `unicode.IsSpace`. -/
def isSpaceGo (c : Char) : Bool :=
  let n := c.toNat
  (9 ≤ n && n ≤ 13) || n == 32 || n == 133 || n == 160 || n == 5760
    || (8192 ≤ n && n ≤ 8202) || n == 8232 || n == 8233 || n == 8239 || n == 8287
    || n == 12288

/-- Go `strings.TrimSpace`. -/
def TrimSpace (s : GoString) : GoString :=
  ((s.dropWhile isSpaceGo).reverse.dropWhile isSpaceGo).reverse

/-- The loop over `pod.Status.ContainerStatuses` (lines 142-147), started with
the current value of `containerID`. Indexing the split ID at 1 panics when it
has a single piece. -/
def findContainerID (target : GoString) : List ContainerStatus → GoString → Outcome GoString
  | [], containerID => Outcome.ret containerID
  | container :: rest, containerID =>
    if container.Name = target then
      match (Split container.ContainerID "//".toList).get? 1 with
      | none => Outcome.panic
      | some id => Outcome.ret id
    else findContainerID target rest containerID

/-- Go `GetContainerID`. -/
def GetContainerID (w : World) (experimentDetails : ExperimentDetails) (t : List Effect) :
    Outcome (Except GoError GoString) × List Effect :=
  if experimentDetails.ContainerRuntime = "docker".toList then
    let host := "unix://".toList ++ experimentDetails.SocketPath
    let cmd := "sudo docker --host ".toList ++ host ++ " ps | grep k8s_POD_".toList
      ++ experimentDetails.TargetPods ++ "_".toList ++ experimentDetails.AppNS
      ++ " | awk '\x7bprint $1\x7d'".toList
    match CombinedOutput w t "/bin/sh".toList ["-c".toList, cmd] with
    | (r, t1) =>
      match r.err with
      | some err => (Outcome.ret (Except.error err), t1)
      | none => (Outcome.ret (Except.ok (TrimSpace r.out)), t1)
  else if experimentDetails.ContainerRuntime = "containerd".toList
      ∨ experimentDetails.ContainerRuntime = "crio".toList then
    let t1 := t ++ [Effect.getPod experimentDetails.AppNS experimentDetails.TargetPods]
    match w.getPod t experimentDetails.AppNS experimentDetails.TargetPods with
    | Except.error err => (Outcome.ret (Except.error err), t1)
    | Except.ok pod =>
      match findContainerID experimentDetails.TargetContainer pod.ContainerStatuses [] with
      | Outcome.ret containerID => (Outcome.ret (Except.ok containerID), t1)
      | Outcome.exit code => (Outcome.exit code, t1)
      | Outcome.panic => (Outcome.panic, t1)
  else
    (Outcome.ret (Except.error (GoError.errorf
      (experimentDetails.ContainerRuntime ++ " container runtime not suported".toList))), t)

/-- Go `GetPID`. -/
def GetPID (w : World) (experimentDetails : ExperimentDetails) (containerID : GoString)
    (t : List Effect) : Outcome (Except GoError Int) × List Effect :=
  if experimentDetails.ContainerRuntime = "docker".toList then
    let host := "unix://".toList ++ experimentDetails.SocketPath
    match CombinedOutput w t "sudo".toList
        ["docker".toList, "--host".toList, host, "inspect".toList, containerID] with
    | (r, t1) =>
      match r.err with
      | some err => (Outcome.ret (Except.error err), t1)
      | none =>
        match parsePIDFromJSON r.out experimentDetails.ContainerRuntime with
        | Outcome.ret (Except.error err) => (Outcome.ret (Except.error err), t1)
        | Outcome.ret (Except.ok PID) => (Outcome.ret (Except.ok PID), t1)
        | Outcome.exit code => (Outcome.exit code, t1)
        | Outcome.panic => (Outcome.panic, t1)
  else if experimentDetails.ContainerRuntime = "containerd".toList
      ∨ experimentDetails.ContainerRuntime = "crio".toList then
    let endpoint := "unix://".toList ++ experimentDetails.SocketPath
    match CombinedOutput w t "sudo".toList
        ["crictl".toList, "-i".toList, endpoint, "-r".toList, endpoint, "inspect".toList,
          containerID] with
    | (r, t1) =>
      match r.err with
      | some err => (Outcome.ret (Except.error err), t1)
      | none =>
        match parsePIDFromJSON r.out experimentDetails.ContainerRuntime with
        | Outcome.ret (Except.error err) => (Outcome.ret (Except.error err), t1)
        | Outcome.ret (Except.ok PID) => (Outcome.ret (Except.ok PID), t1)
        | Outcome.exit code => (Outcome.exit code, t1)
        | Outcome.panic => (Outcome.panic, t1)
  else
    (Outcome.ret (Except.error (GoError.errorf
      (experimentDetails.ContainerRuntime ++ " container runtime not suported".toList))), t)

/-- The event recorded in the chaos engine (lines 92-96), when an engine name is
configured. -/
def injectEvent (experimentDetails : ExperimentDetails) : List Effect :=
  if experimentDetails.EngineName ≠ [] then
    [Effect.event "ChaosInject".toList
      ("Injecting ".toList ++ experimentDetails.ExperimentName
        ++ " chaos on application pod".toList)
      "Normal".toList]
  else []

/-- Go `PreparePodNetworkChaos`, as run by the main goroutine: starting the
abort watcher is recorded as an effect. -/
def PreparePodNetworkChaos (w : World) (experimentsDetails : ExperimentDetails)
    (t : List Effect) : Outcome (Option GoError) × List Effect :=
  match GetContainerID w experimentsDetails t with
  | (Outcome.exit code, t1) => (Outcome.exit code, t1)
  | (Outcome.panic, t1) => (Outcome.panic, t1)
  | (Outcome.ret (Except.error err), t1) => (Outcome.ret (some err), t1)
  | (Outcome.ret (Except.ok containerID), t1) =>
    match GetPID w experimentsDetails containerID t1 with
    | (Outcome.exit code, t2) => (Outcome.exit code, t2)
    | (Outcome.panic, t2) => (Outcome.panic, t2)
    | (Outcome.ret (Except.error err), t2) => (Outcome.ret (some err), t2)
    | (Outcome.ret (Except.ok targetPID), t2) =>
      let t3 := t2 ++ injectEvent experimentsDetails
      let t4 := t3 ++ [Effect.goAbortWatcher targetPID]
      match InjectChaos w experimentsDetails targetPID t4 with
      | (Outcome.exit code, t5) => (Outcome.exit code, t5)
      | (Outcome.panic, t5) => (Outcome.panic, t5)
      | (Outcome.ret (some err), t5) => (Outcome.ret (some err), t5)
      | (Outcome.ret none, t5) =>
        let t6 := t5 ++ [Effect.waitForDuration experimentsDetails.ChaosDuration]
        match Killnetem w targetPID t6 with
        | (some err, t7) => (Outcome.ret (some err), t7)
        | (none, t7) => (Outcome.ret none, t7)

/-! ## The abort watcher (`abortWatcher`) -/

/-- The loop `for retry > 0` of `abortWatcher` (lines 425-431), with `retry`
iterations left: the revert is called, its error is only logged, and the
goroutine sleeps one second. -/
def revertRetries (w : World) (targetPID : Int) : Nat → List Effect → List Effect
  | 0, t => t
  | retry + 1, t =>
    match Killnetem w targetPID t with
    | (some _, t1) => revertRetries w targetPID retry (t1 ++ [Effect.sleep 1])
    | (none, t1) => revertRetries w targetPID retry (t1 ++ [Effect.sleep 1])

/-- Go `abortWatcher`, as run by its goroutine. `abort` tells whether a signal
is delivered to the `abort` channel; without one the goroutine stays blocked in
its `select` for ever, which is the result `none`. -/
def abortWatcher (w : World) (abort : Bool) (targetPID : Int) (t : List Effect) :
    Option (Outcome Unit) × List Effect :=
  if abort then (some (Outcome.exit 1), revertRetries w targetPID 3 t)
  else (none, t)

/-! ## Reference definitions used to state the properties -/

/-- The command lines of the filtered program in the order the specification
gives them: the root prio qdisc, netem under band 1:3, then one filter for each
entry of `uniqueIps` that has no colon. -/
def filteredProgram (pid : Int) (iface netemCommands destinationIPs : GoString) :
    List GoString :=
  priorityCmd pid iface :: trafficCmd pid iface netemCommands ::
    ((uniqueIps destinationIPs).filter (fun ip => !Contains ip ":".toList)).map
      (filterCmd pid iface)

/-- Running command lines through `/bin/bash -c` one after the other, stopping
at the first one that fails. -/
def runAll (w : World) : List GoString → List Effect → Option GoError × List Effect
  | [], t => (none, t)
  | c :: cs, t =>
    match (w.run t "/bin/bash".toList ["-c".toList, c]).err with
    | some e => (some e, t ++ [bashEffect c])
    | none => runAll w cs (t ++ [bashEffect c])

/-- An environment given by a list of variables; a variable not listed is
empty. -/
def envOf (vars : List (GoString × GoString)) (key : GoString) : GoString :=
  match vars.find? (fun p => p.1 = key) with
  | some p => p.2
  | none => []

/-- A world in which every command succeeds with empty output, the cluster API
knows no pod and no signal arrives. -/
def quietWorld (vars : List (GoString × GoString)) : World :=
  { getenv := envOf vars
    run := fun _ _ _ => ⟨[], none⟩
    getPod := fun _ _ _ => Except.error (GoError.api [])
    injectSignal := fun _ => false }

/-- A world like `quietWorld` in which every command whose line is `bad` fails
with output `out`. -/
def failingWorld (vars : List (GoString × GoString)) (bad out : GoString) : World :=
  { getenv := envOf vars
    run := fun _ _ args =>
      if args = ["-c".toList, bad] then ⟨out, some (GoError.exec "exit status 2".toList)⟩
      else ⟨[], none⟩
    getPod := fun _ _ _ => Except.error (GoError.api [])
    injectSignal := fun _ => false }

/-- Experiment details with the given runtime and interface, all else empty. -/
def detailsOf (runtime iface : GoString) : ExperimentDetails :=
  { ExperimentName := [], AppNS := [], TargetContainer := [], TargetPods := [], AppLabel := [],
    ChaosDuration := 0, ChaosNamespace := [], EngineName := [], ChaosUID := [],
    ChaosPodName := [], ContainerRuntime := runtime, NetworkInterface := iface,
    SocketPath := [], DestinationIPs := [] }

/-- The value of the only member of an object that is stored into a field of a
struct with the given field names, when that field is field `i`; `none` when no
member or more than one member is stored into a field, or the field is another
one. Members whose key matches no field may be present in any number. -/
def soleField (fields : List GoString) (i : Nat) (members : List (GoString × JSON)) :
    Option JSON :=
  match members.filter (fun m => (findField fields m.1).isSome) with
  | [m] => if findField fields m.1 = some i then some m.2 else none
  | _ => none

/-- The documented docker shape with PID `n`: an array whose first element is an
object with one member for `State` (any case), itself an object with one member
for `Pid` holding a number literal that reads as the `int` `n`; the remaining
elements are well-formed inspect entries. -/
def DockerShape (v : JSON) (n : Int) : Prop :=
  ∃ ms0 ms1 lit rest, v = JSON.arr (JSON.obj ms0 :: rest)
    ∧ soleField ["state".toList] 0 ms0 = some (JSON.obj ms1)
    ∧ soleField ["pid".toList] 0 ms1 = some (JSON.num lit)
    ∧ parseInt64 lit = some n
    ∧ ∀ r ∈ rest, ∃ d, decodeDockerInspectResponse ⟨⟨0⟩⟩ r = Except.ok d

/-- The value of the only member of an object that is stored into field `i` of
a struct with the given field names; `none` when no member or more than one
member is stored into that field. The other members may be stored into other
fields or into none. -/
def soleMember (fields : List GoString) (i : Nat) (members : List (GoString × JSON)) :
    Option JSON :=
  match members.filter (fun m => findField fields m.1 == some i) with
  | [m] => some m.2
  | _ => none

/-- The documented containerd shape with PID `n`: an object that decodes
without a type error into `CrictlInspectResponse` (so `info` may carry a `pid`
and anything else beside `runtimeSpec`, each of a type its field can hold) and
in which one member is stored into `info`, one member of that into
`runtimeSpec`, one member of that into `linux` and one member of that into
`namespaces`, an array whose entries decode to namespaces of which exactly one
has type `network`, with path `/proc/<n>/ns/net`. A key that occurs twice along
this path is outside the shape. -/
def ContainerdShape (v : JSON) (n : Int) : Prop :=
  ∃ mt mi mr ml elems pre post, v = JSON.obj mt
    ∧ (∃ resp, decodeCrictlInspectResponse ⟨zeroInfoDetails⟩ v = Except.ok resp)
    ∧ soleMember ["info".toList] 0 mt = some (JSON.obj mi)
    ∧ soleMember ["runtimeSpec".toList, "pid".toList] 0 mi = some (JSON.obj mr)
    ∧ soleMember ["linux".toList] 0 mr = some (JSON.obj ml)
    ∧ soleMember ["namespaces".toList] 0 ml = some (JSON.arr elems)
    ∧ elems.mapM (decodeNamespace ⟨[], []⟩)
        = Except.ok (pre ++ ⟨"network".toList,
            "/proc/".toList ++ formatInt n ++ "/ns/net".toList⟩ :: post)
    ∧ ∀ ns ∈ pre ++ post, ns.Type_ ≠ "network".toList

/-- The documented crio shape with PID `n`: an object that decodes without a
type error under both shapes the code uses, whose top-level `pid` is zero or
absent (it decodes into an `InfoDetails` with `PID` 0), and in which one member
is stored into `info` and one member of that into `pid`, a number literal that
reads as the `int` `n`; `info` may carry a `runtimeSpec` and anything else
beside `pid`. A second `info` member or a second `pid` member of `info` is
outside the shape. -/
def CrioShape (v : JSON) (n : Int) : Prop :=
  ∃ mt mi lit, v = JSON.obj mt
    ∧ (∃ info, decodeInfoDetails zeroInfoDetails v = Except.ok info ∧ info.PID = 0)
    ∧ (∃ resp, decodeCrictlInspectResponse ⟨zeroInfoDetails⟩ v = Except.ok resp)
    ∧ soleMember ["info".toList] 0 mt = some (JSON.obj mi)
    ∧ soleMember ["runtimeSpec".toList, "pid".toList] 1 mi = some (JSON.num lit)
    ∧ parseInt64 lit = some n

/-- The error that `parsePIDFromJSON` returns for a zero PID. -/
def pidNotFound : GoError :=
  GoError.errorf "[cri]: No running target container found, pid: 0".toList

/-! ## Concrete inspect outputs and worlds -/

/-- Output of `docker inspect` with `State.Pid` 4242. -/
def dockerDoc : GoString :=
  "[\x7b\"Id\":\"abc\",\"State\":\x7b\"Status\":\"running\",\"Pid\":4242\x7d\x7d]".toList

/-- Output of `crictl inspect` under containerd: `info` carries a `pid` and a
`runtimeSpec` whose network namespace is the one of PID 4242. -/
def containerdDoc : GoString :=
  "\x7b\"status\":\x7b\"id\":\"abc\"\x7d,\"info\":\x7b\"sandboxID\":\"s\",\"pid\":4242,\"runtimeSpec\":\x7b\"linux\":\x7b\"namespaces\":[\x7b\"type\":\"pid\"\x7d,\x7b\"type\":\"ipc\"\x7d,\x7b\"type\":\"network\",\"path\":\"/proc/4242/ns/net\"\x7d]\x7d\x7d\x7d\x7d".toList

/-- Output of `crictl inspect` under crio: `info` carries a `pid` 4242 and a
`runtimeSpec`. -/
def crioDoc : GoString :=
  "\x7b\"status\":\x7b\"id\":\"abc\"\x7d,\"info\":\x7b\"sandboxID\":\"s\",\"pid\":4242,\"runtimeSpec\":\x7b\"linux\":\x7b\"namespaces\":[\x7b\"type\":\"network\",\"path\":\"/var/run/netns/x\"\x7d]\x7d\x7d\x7d\x7d".toList

/-- Output of `docker inspect` with `State.Pid` 0. -/
def dockerZeroDoc : GoString :=
  "[\x7b\"State\":\x7b\"Pid\":0\x7d\x7d]".toList

/-- Output of `crictl inspect` under containerd: `info` carries a `pid` and a
`runtimeSpec` whose network namespace path is the one of PID 0. -/
def containerdZeroDoc : GoString :=
  "\x7b\"info\":\x7b\"pid\":0,\"runtimeSpec\":\x7b\"linux\":\x7b\"namespaces\":[\x7b\"type\":\"network\",\"path\":\"/proc/0/ns/net\"\x7d]\x7d\x7d\x7d\x7d".toList

/-- Output of `crictl inspect` under crio: `info` carries a `pid` 0 and a
`runtimeSpec`. -/
def crioZeroFullDoc : GoString :=
  "\x7b\"status\":\x7b\"id\":\"abc\"\x7d,\"info\":\x7b\"pid\":0,\"runtimeSpec\":\x7b\"linux\":\x7b\"namespaces\":[\x7b\"type\":\"network\",\"path\":\"/var/run/netns/x\"\x7d]\x7d\x7d\x7d\x7d".toList

/-- Output of `crictl inspect` under crio with `info.pid` 0. -/
def crioZeroDoc : GoString :=
  "\x7b\"info\":\x7b\"pid\":0\x7d\x7d".toList

/-- Output of `crictl inspect` under containerd whose network namespace path has two pieces. -/
def containerdShortPathDoc : GoString :=
  "\x7b\"info\":\x7b\"runtimeSpec\":\x7b\"linux\":\x7b\"namespaces\":[\x7b\"type\":\"network\",\"path\":\"/proc\"\x7d]\x7d\x7d\x7d\x7d".toList

/-- An effect of the resolve phase: the `docker ps` pipeline run through
`/bin/sh`, an inspect command run through `sudo`, or a read of the pod. The
commands of the injection and of the revert all run through `/bin/bash`. -/
def isResolveEffect : Effect → Bool
  | Effect.command name _ => name == "/bin/sh".toList || name == "sudo".toList
  | Effect.getPod _ _ => true
  | _ => false

/-- Experiment details of a crio target: container `app` of pod `web` in
namespace `prod`, with an engine configured. -/
def crioDetails : ExperimentDetails :=
  { ExperimentName := "pod-network-latency".toList, AppNS := "prod".toList,
    TargetContainer := "app".toList, TargetPods := "web".toList, AppLabel := [],
    ChaosDuration := 5, ChaosNamespace := "litmus".toList, EngineName := "engine".toList,
    ChaosUID := [], ChaosPodName := [], ContainerRuntime := "crio".toList,
    NetworkInterface := "eth0".toList, SocketPath := "/run/crio/crio.sock".toList,
    DestinationIPs := [] }

/-- A world in which the pod has a running container `app` and every command
succeeds with output `inspectOut`. -/
def crioWorld (inspectOut : GoString) : World :=
  { getenv := envOf [("NETEM_COMMAND".toList, "delay 200ms".toList)]
    run := fun _ _ _ => ⟨inspectOut, none⟩
    getPod := fun _ _ _ => Except.ok ⟨[⟨"app".toList, "cri-o://abc".toList⟩]⟩
    injectSignal := fun _ => false }

/-- A world like `quietWorld` in which the `inject` channel already holds a
signal. -/
def signalledWorld (vars : List (GoString × GoString)) : World :=
  { getenv := envOf vars
    run := fun _ _ _ => ⟨[], none⟩
    getPod := fun _ _ _ => Except.error (GoError.api [])
    injectSignal := fun _ => true }

/-- A world whose pod has the given container statuses; every command succeeds
with empty output. -/
def podWorld (statuses : List ContainerStatus) : World :=
  { getenv := envOf []
    run := fun _ _ _ => ⟨[], none⟩
    getPod := fun _ _ _ => Except.ok ⟨statuses⟩
    injectSignal := fun _ => false }

/-- The details `crioDetails` for a containerd target. -/
def containerdDetails : ExperimentDetails :=
  { crioDetails with ContainerRuntime := "containerd".toList }

/-- Output of `crictl inspect` under crio with a top-level `pid` 5 and an
`info.pid` 7. -/
def crioTopPidDoc : GoString :=
  "\x7b\"pid\":5,\"info\":\x7b\"pid\":7\x7d\x7d".toList

/-- Output of `crictl inspect` under crio with a top-level `pid` 0 and an
`info.pid` 7. -/
def crioFallbackDoc : GoString :=
  "\x7b\"pid\":0,\"info\":\x7b\"pid\":7\x7d\x7d".toList

/-- A JSON object with a top-level `pid` 5 whose top-level `runtimeSpec` is a
number. -/
def crioMistypedTopDoc : GoString :=
  "\x7b\"runtimeSpec\":3,\"pid\":5\x7d".toList

/-- A JSON object with `info.pid` 7 whose `info.runtimeSpec` is a number. -/
def crioMistypedDoc : GoString :=
  "\x7b\"info\":\x7b\"pid\":7,\"runtimeSpec\":3\x7d\x7d".toList

/-! ## Properties of the duplicate removal -/

theorem isPresent_foldl (ip : GoString) (l : List GoString) (b : Bool) :
    l.foldl (fun present u => if ip = u then true else present) b = (b || decide (ip ∈ l)) := by
  induction l generalizing b with
  | nil => simp
  | cons a l ih =>
    rw [List.foldl_cons, ih]
    by_cases h : ip = a
    · simp [h]
    · simp [h]

theorem isPresent_iff (ip : GoString) (l : List GoString) : isPresent ip l = true ↔ ip ∈ l := by
  unfold isPresent
  rw [isPresent_foldl]
  simp

theorem dedupStep_of_mem {acc : List GoString} {ip : GoString} (h : ip ∈ acc) :
    dedupStep acc ip = acc := by
  have := (isPresent_iff ip acc).2 h
  simp [dedupStep, this]

theorem dedupStep_of_not_mem {acc : List GoString} {ip : GoString} (h : ip ∉ acc) :
    dedupStep acc ip = acc ++ [ip] := by
  have : isPresent ip acc = false := by
    cases hp : isPresent ip acc
    · rfl
    · exact absurd ((isPresent_iff ip acc).1 hp) h
  simp [dedupStep, this]

theorem foldl_dedupStep_nodup (ips acc : List GoString) (h : acc.Nodup) :
    (ips.foldl dedupStep acc).Nodup := by
  induction ips generalizing acc with
  | nil => simpa using h
  | cons i rest ih =>
    rw [List.foldl_cons]
    apply ih
    by_cases hi : i ∈ acc
    · rw [dedupStep_of_mem hi]; exact h
    · rw [dedupStep_of_not_mem hi]
      exact List.Nodup.append h (List.nodup_singleton i) (by simpa using hi)

theorem mem_foldl_dedupStep (ips acc : List GoString) (x : GoString) :
    x ∈ ips.foldl dedupStep acc ↔ x ∈ acc ∨ x ∈ ips := by
  induction ips generalizing acc with
  | nil => simp
  | cons i rest ih =>
    rw [List.foldl_cons, ih]
    by_cases hi : i ∈ acc
    · rw [dedupStep_of_mem hi]
      constructor
      · rintro (h | h)
        · exact Or.inl h
        · exact Or.inr (List.mem_cons_of_mem _ h)
      · rintro (h | h)
        · exact Or.inl h
        · rcases List.mem_cons.1 h with h | h
          · exact Or.inl (h ▸ hi)
          · exact Or.inr h
    · rw [dedupStep_of_not_mem hi]
      simp only [List.mem_append, List.mem_singleton, List.mem_cons]
      tauto

theorem firstIndex_le_length (x : GoString) (l : List GoString) :
    firstIndex x l ≤ l.length := by
  induction l with
  | nil => simp [firstIndex]
  | cons a l ih =>
    by_cases h : x = a
    · simp [firstIndex, h]
    · simp [firstIndex, h, ih]

theorem firstIndex_lt_length {x : GoString} {l : List GoString} (h : x ∈ l) :
    firstIndex x l < l.length := by
  induction l with
  | nil => simp at h
  | cons a l ih =>
    by_cases hxa : x = a
    · simp [firstIndex, hxa]
    · have : x ∈ l := by
        rcases List.mem_cons.1 h with h | h
        · exact absurd h hxa
        · exact h
      simp [firstIndex, hxa, ih this]

theorem firstIndex_append_of_mem {x : GoString} {l : List GoString} (h : x ∈ l)
    (r : List GoString) : firstIndex x (l ++ r) = firstIndex x l := by
  induction l with
  | nil => simp at h
  | cons a l ih =>
    by_cases hxa : x = a
    · simp [firstIndex, hxa]
    · have : x ∈ l := by
        rcases List.mem_cons.1 h with h | h
        · exact absurd h hxa
        · exact h
      simp [firstIndex, hxa, ih this]

theorem firstIndex_append_of_not_mem {x : GoString} {l : List GoString} (h : x ∉ l)
    (r : List GoString) : firstIndex x (l ++ r) = l.length + firstIndex x r := by
  induction l with
  | nil => simp
  | cons a l ih =>
    have hxa : x ≠ a := fun e => h (e ▸ List.mem_cons_self _ _)
    have hl : x ∉ l := fun e => h (List.mem_cons_of_mem _ e)
    simp [firstIndex, hxa, ih hl]
    omega

theorem firstIndex_lt_insert_iff (acc rest : List GoString) (i x y : GoString) (hi : i ∈ acc) :
    firstIndex x (acc ++ i :: rest) < firstIndex y (acc ++ i :: rest)
      ↔ firstIndex x (acc ++ rest) < firstIndex y (acc ++ rest) := by
  by_cases hx : x ∈ acc
  · by_cases hy : y ∈ acc
    · simp [firstIndex_append_of_mem hx, firstIndex_append_of_mem hy]
    · have hyi : y ≠ i := fun h => hy (h ▸ hi)
      have := firstIndex_lt_length hx
      simp only [firstIndex_append_of_mem hx, firstIndex_append_of_not_mem hy, firstIndex,
        if_neg hyi]
      omega
  · have hxi : x ≠ i := fun h => hx (h ▸ hi)
    by_cases hy : y ∈ acc
    · have := firstIndex_lt_length hy
      simp only [firstIndex_append_of_mem hy, firstIndex_append_of_not_mem hx, firstIndex,
        if_neg hxi]
      omega
    · have hyi : y ≠ i := fun h => hy (h ▸ hi)
      simp only [firstIndex_append_of_not_mem hx, firstIndex_append_of_not_mem hy, firstIndex,
        if_neg hxi, if_neg hyi]
      omega

theorem foldl_dedupStep_order (ips acc : List GoString) (x y : GoString) :
    firstIndex x (ips.foldl dedupStep acc) < firstIndex y (ips.foldl dedupStep acc)
      ↔ firstIndex x (acc ++ ips) < firstIndex y (acc ++ ips) := by
  induction ips generalizing acc with
  | nil => simp
  | cons i rest ih =>
    rw [List.foldl_cons, ih]
    by_cases hi : i ∈ acc
    · rw [dedupStep_of_mem hi]
      exact (firstIndex_lt_insert_iff acc rest i x y hi).symm
    · rw [dedupStep_of_not_mem hi, List.append_assoc, List.singleton_append]

/-- C1: for a non-empty `DESTINATION_IPS`, the list `uniqueIps` has no two equal
entries, has exactly the entries of the split list, and lists them in the order
of their first occurrence in the split list. -/
theorem uniqueIps_distinct_in_first_occurrence_order (destinationIPs : GoString)
    (_h : destinationIPs ≠ []) :
    (uniqueIps destinationIPs).Nodup
      ∧ (∀ x, x ∈ uniqueIps destinationIPs ↔ x ∈ Split destinationIPs ",".toList)
      ∧ (∀ x y, firstIndex x (uniqueIps destinationIPs)
            < firstIndex y (uniqueIps destinationIPs)
          ↔ firstIndex x (Split destinationIPs ",".toList)
            < firstIndex y (Split destinationIPs ",".toList)) := by
  refine ⟨?_, ?_, ?_⟩
  · exact foldl_dedupStep_nodup _ [] List.nodup_nil
  · intro x
    simpa [uniqueIps, uniqueIpsOf] using mem_foldl_dedupStep (Split destinationIPs ",".toList) [] x
  · intro x y
    simpa [uniqueIps, uniqueIpsOf] using
      foldl_dedupStep_order (Split destinationIPs ",".toList) [] x y

/-- The list `a,b,a,c,b` is deduplicated to `[a, b, c]`. -/
theorem uniqueIps_example_witness :
    "a,b,a,c,b".toList ≠ []
      ∧ uniqueIps "a,b,a,c,b".toList = ["a".toList, "b".toList, "c".toList]
      ∧ ((uniqueIps "a,b,a,c,b".toList).Nodup
        ∧ (∀ x, x ∈ uniqueIps "a,b,a,c,b".toList ↔ x ∈ Split "a,b,a,c,b".toList ",".toList)
        ∧ (∀ x y, firstIndex x (uniqueIps "a,b,a,c,b".toList)
              < firstIndex y (uniqueIps "a,b,a,c,b".toList)
            ↔ firstIndex x (Split "a,b,a,c,b".toList ",".toList)
              < firstIndex y (Split "a,b,a,c,b".toList ",".toList))) :=
  ⟨by decide, by decide,
    uniqueIps_distinct_in_first_occurrence_order "a,b,a,c,b".toList (by decide)⟩

/-! ## Properties of the injection -/

theorem runAll_append_of_ok (w : World) (pre rest : List GoString) (t : List Effect)
    (hpre : ∀ pre1 c1 pre2, pre = pre1 ++ c1 :: pre2 →
      (w.run (t ++ pre1.map bashEffect) "/bin/bash".toList ["-c".toList, c1]).err = none) :
    runAll w (pre ++ rest) t = runAll w rest (t ++ pre.map bashEffect) := by
  induction pre generalizing t with
  | nil => simp
  | cons c cs ih =>
    have h0 := hpre [] c cs rfl
    simp only [List.map_nil, List.append_nil] at h0
    rw [List.cons_append, runAll, h0]
    simp only
    rw [ih]
    · simp
    · intro pre1 c1 pre2 hcs
      have := hpre (c :: pre1) c1 pre2 (by rw [hcs]; rfl)
      simpa using this

theorem runAll_of_ok (w : World) (cmds : List GoString) (t : List Effect)
    (h : ∀ pre c post, cmds = pre ++ c :: post →
      (w.run (t ++ pre.map bashEffect) "/bin/bash".toList ["-c".toList, c]).err = none) :
    runAll w cmds t = (none, t ++ cmds.map bashEffect) := by
  have := runAll_append_of_ok w cmds [] t (fun pre1 c1 pre2 e => h pre1 c1 pre2 e)
  simpa [runAll] using this

theorem runAll_of_fail (w : World) (pre post : List GoString) (c : GoString) (e : GoError)
    (t : List Effect)
    (hpre : ∀ pre1 c1 pre2, pre = pre1 ++ c1 :: pre2 →
      (w.run (t ++ pre1.map bashEffect) "/bin/bash".toList ["-c".toList, c1]).err = none)
    (hc : (w.run (t ++ pre.map bashEffect) "/bin/bash".toList ["-c".toList, c]).err = some e) :
    runAll w (pre ++ c :: post) t = (some e, t ++ (pre ++ [c]).map bashEffect) := by
  rw [runAll_append_of_ok w pre (c :: post) t hpre, runAll, hc]
  simp

theorem addFilters_eq_runAll (w : World) (pid : Int) (iface : GoString) (ips : List GoString)
    (t : List Effect) :
    addFilters w pid iface ips t
      = runAll w ((ips.filter (fun ip => !Contains ip ":".toList)).map (filterCmd pid iface)) t := by
  induction ips generalizing t with
  | nil => rfl
  | cons ip ips ih =>
    by_cases hc : Contains ip ":".toList = true
    · simp only [addFilters, hc, Bool.not_true, Bool.false_eq_true, if_false, List.filter_cons,
        ih]
    · have hc' : Contains ip ":".toList = false := by simpa using hc
      simp only [addFilters, hc', Bool.not_false, if_true, List.filter_cons, List.map_cons,
        runAll, CombinedOutput, bashEffect]
      cases hr : (w.run t "/bin/bash".toList ["-c".toList, filterCmd pid iface ip]).err with
      | none => simp only [ih, bashEffect]
      | some e => rfl

theorem InjectChaos_filtered_eq_runAll (w : World) (experimentDetails : ExperimentDetails)
    (pid : Int) (t : List Effect)
    (hd : w.getenv "DESTINATION_IPS".toList ≠ [])
    (hs : w.injectSignal t = false) :
    InjectChaos w experimentDetails pid t
      = (Outcome.ret (runAll w (filteredProgram pid experimentDetails.NetworkInterface
            (w.getenv "NETEM_COMMAND".toList) (w.getenv "DESTINATION_IPS".toList)) t).1,
          (runAll w (filteredProgram pid experimentDetails.NetworkInterface
            (w.getenv "NETEM_COMMAND".toList) (w.getenv "DESTINATION_IPS".toList)) t).2) := by
  simp only [InjectChaos, hs, hd, if_false, Bool.false_eq_true, filteredProgram, runAll,
    CombinedOutput, bashEffect]
  cases h1 : (w.run t "/bin/bash".toList
      ["-c".toList, priorityCmd pid experimentDetails.NetworkInterface]).err with
  | some e => rfl
  | none =>
    simp only
    cases h2 : (w.run (t ++ [Effect.command "/bin/bash".toList
        ["-c".toList, priorityCmd pid experimentDetails.NetworkInterface]]) "/bin/bash".toList
        ["-c".toList, trafficCmd pid experimentDetails.NetworkInterface
          (w.getenv "NETEM_COMMAND".toList)]).err with
    | some e => rfl
    | none =>
      simp only [addFilters_eq_runAll]
      generalize runAll w _ _ = r
      rcases r with ⟨_ | e, t3⟩ <;> rfl

/-- C2: with a non-empty `DESTINATION_IPS`, no pending signal and every command
succeeding, `InjectChaos` returns no error and issues, after the two qdisc
commands, exactly one `tc filter add` command for each entry of `uniqueIps` that
has no colon, in order; an entry with a colon gives no command and no error. -/
theorem InjectChaos_filters_skip_colon_entries (w : World)
    (experimentDetails : ExperimentDetails) (pid : Int) (t : List Effect)
    (hd : w.getenv "DESTINATION_IPS".toList ≠ [])
    (hs : w.injectSignal t = false)
    (hok : ∀ t1 c, (w.run t1 "/bin/bash".toList ["-c".toList, c]).err = none) :
    InjectChaos w experimentDetails pid t
      = (Outcome.ret none,
          t ++ (bashEffect (priorityCmd pid experimentDetails.NetworkInterface)
            :: bashEffect (trafficCmd pid experimentDetails.NetworkInterface
                  (w.getenv "NETEM_COMMAND".toList))
            :: ((uniqueIps (w.getenv "DESTINATION_IPS".toList)).filter
                  (fun ip => !Contains ip ":".toList)).map
                (fun ip => bashEffect ("sudo nsenter -t ".toList ++ formatInt pid
                  ++ " -n tc filter add dev ".toList ++ experimentDetails.NetworkInterface
                  ++ " protocol ip parent 1:0 prio 3 u32 match ip dst ".toList ++ ip
                  ++ " flowid 1:3".toList)))) := by
  rw [InjectChaos_filtered_eq_runAll w experimentDetails pid t hd hs,
    runAll_of_ok w _ t (fun pre c _ _ => hok (t ++ pre.map bashEffect) c)]
  simp only [filteredProgram, List.map_cons, List.map_map]
  rfl

/-- With `1.2.3.4,fe80::1,5.6.7.8` exactly two filters are installed, for
`1.2.3.4` and then `5.6.7.8`. -/
theorem InjectChaos_filters_skip_colon_entries_witness :
    (quietWorld [("DESTINATION_IPS".toList, "1.2.3.4,fe80::1,5.6.7.8".toList),
        ("NETEM_COMMAND".toList, "loss 10%".toList)]).getenv "DESTINATION_IPS".toList ≠ []
      ∧ InjectChaos (quietWorld [("DESTINATION_IPS".toList, "1.2.3.4,fe80::1,5.6.7.8".toList),
          ("NETEM_COMMAND".toList, "loss 10%".toList)])
          (detailsOf "containerd".toList "eth0".toList) 77 []
        = (Outcome.ret none,
            [bashEffect "sudo nsenter -t 77 -n tc qdisc replace dev eth0 root handle 1: prio".toList,
             bashEffect
              "sudo nsenter -t 77 -n tc qdisc replace dev eth0 parent 1:3 netem loss 10%".toList,
             bashEffect ("sudo nsenter -t 77 -n tc filter add dev eth0 protocol ip parent 1:0 "
              ++ "prio 3 u32 match ip dst 1.2.3.4 flowid 1:3").toList,
             bashEffect ("sudo nsenter -t 77 -n tc filter add dev eth0 protocol ip parent 1:0 "
              ++ "prio 3 u32 match ip dst 5.6.7.8 flowid 1:3").toList]) :=
  ⟨by decide,
    (InjectChaos_filters_skip_colon_entries
      (quietWorld [("DESTINATION_IPS".toList, "1.2.3.4,fe80::1,5.6.7.8".toList),
        ("NETEM_COMMAND".toList, "loss 10%".toList)])
      (detailsOf "containerd".toList "eth0".toList) 77 [] (by decide) rfl
      (fun _ _ => rfl)).trans (by decide)⟩

/-- C3: `Killnetem` returns an error exactly when the delete command fails and
its combined output contains neither of the two benign messages; the error is
then the one of the command. -/
theorem Killnetem_error_iff (w : World) (PID : Int) (t : List Effect) :
    ((Killnetem w PID t).1 ≠ none
      ↔ ((w.run t "/bin/bash".toList ["-c".toList, killCmd PID]).err ≠ none
        ∧ Contains (w.run t "/bin/bash".toList ["-c".toList, killCmd PID]).out
            "Cannot delete qdisc with handle of zero".toList = false
        ∧ Contains (w.run t "/bin/bash".toList ["-c".toList, killCmd PID]).out
            "RTNETLINK answers: No such file or directory".toList = false))
      ∧ ((Killnetem w PID t).1 ≠ none
        → (Killnetem w PID t).1
          = (w.run t "/bin/bash".toList ["-c".toList, killCmd PID]).err) := by
  have hA : qdiscNotFound = "Cannot delete qdisc with handle of zero".toList := rfl
  have hB : qdiscNoFileFound = "RTNETLINK answers: No such file or directory".toList := rfl
  simp only [Killnetem, CombinedOutput, hA, hB]
  cases he : (w.run t "/bin/bash".toList ["-c".toList, killCmd PID]).err with
  | none => simp
  | some e =>
    cases h1 : Contains (w.run t "/bin/bash".toList ["-c".toList, killCmd PID]).out
        "Cannot delete qdisc with handle of zero".toList <;>
    cases h2 : Contains (w.run t "/bin/bash".toList ["-c".toList, killCmd PID]).out
        "RTNETLINK answers: No such file or directory".toList <;>
    simp

/-- C4: with a non-empty `DESTINATION_IPS` and no pending signal, `InjectChaos`
runs the filtered program in order (the root prio qdisc, netem under 1:3, then
the filters). If every command succeeds all of them are issued and no error is
returned; if a command fails after the ones before it succeeded, its error is
returned and no later command is issued. -/
theorem InjectChaos_filtered_program_in_order (w : World)
    (experimentDetails : ExperimentDetails) (pid : Int) (t : List Effect)
    (hd : w.getenv "DESTINATION_IPS".toList ≠ [])
    (hs : w.injectSignal t = false) :
    filteredProgram pid experimentDetails.NetworkInterface (w.getenv "NETEM_COMMAND".toList)
        (w.getenv "DESTINATION_IPS".toList)
      = ("sudo nsenter -t ".toList ++ formatInt pid ++ " -n tc qdisc replace dev ".toList
          ++ experimentDetails.NetworkInterface ++ " root handle 1: prio".toList)
        :: ("sudo nsenter -t ".toList ++ formatInt pid ++ " -n tc qdisc replace dev ".toList
          ++ experimentDetails.NetworkInterface ++ " parent 1:3 netem ".toList
          ++ w.getenv "NETEM_COMMAND".toList)
        :: ((uniqueIps (w.getenv "DESTINATION_IPS".toList)).filter
              (fun ip => !Contains ip ":".toList)).map
            (fun D => "sudo nsenter -t ".toList ++ formatInt pid
              ++ " -n tc filter add dev ".toList ++ experimentDetails.NetworkInterface
              ++ " protocol ip parent 1:0 prio 3 u32 match ip dst ".toList ++ D
              ++ " flowid 1:3".toList)
    ∧ ((∀ pre c post,
          filteredProgram pid experimentDetails.NetworkInterface
            (w.getenv "NETEM_COMMAND".toList) (w.getenv "DESTINATION_IPS".toList)
            = pre ++ c :: post →
          (w.run (t ++ pre.map bashEffect) "/bin/bash".toList ["-c".toList, c]).err = none) →
        InjectChaos w experimentDetails pid t
          = (Outcome.ret none,
              t ++ (filteredProgram pid experimentDetails.NetworkInterface
                (w.getenv "NETEM_COMMAND".toList)
                (w.getenv "DESTINATION_IPS".toList)).map bashEffect))
    ∧ (∀ pre c post e,
          filteredProgram pid experimentDetails.NetworkInterface
            (w.getenv "NETEM_COMMAND".toList) (w.getenv "DESTINATION_IPS".toList)
            = pre ++ c :: post →
          (∀ pre1 c1 pre2, pre = pre1 ++ c1 :: pre2 →
            (w.run (t ++ pre1.map bashEffect) "/bin/bash".toList ["-c".toList, c1]).err
              = none) →
          (w.run (t ++ pre.map bashEffect) "/bin/bash".toList ["-c".toList, c]).err = some e →
          InjectChaos w experimentDetails pid t
            = (Outcome.ret (some e), t ++ (pre ++ [c]).map bashEffect)) := by
  refine ⟨rfl, ?_, ?_⟩
  · intro hok
    rw [InjectChaos_filtered_eq_runAll w experimentDetails pid t hd hs, runAll_of_ok w _ t hok]
  · intro pre c post e hP hpre hc
    rw [InjectChaos_filtered_eq_runAll w experimentDetails pid t hd hs, hP,
      runAll_of_fail w pre post c e t hpre hc]

/-- Scenario S2 (`10.0.0.1,10.0.0.1,10.0.0.2`, pid 77, `eth0`), and the same
program stopped by a failing netem command. -/
theorem InjectChaos_filtered_program_in_order_witness :
    (quietWorld [("DESTINATION_IPS".toList, "10.0.0.1,10.0.0.1,10.0.0.2".toList),
        ("NETEM_COMMAND".toList, "loss 10%".toList)]).getenv "DESTINATION_IPS".toList ≠ []
      ∧ InjectChaos (quietWorld [("DESTINATION_IPS".toList, "10.0.0.1,10.0.0.1,10.0.0.2".toList),
          ("NETEM_COMMAND".toList, "loss 10%".toList)])
          (detailsOf "containerd".toList "eth0".toList) 77 []
        = (Outcome.ret none,
            [bashEffect "sudo nsenter -t 77 -n tc qdisc replace dev eth0 root handle 1: prio".toList,
             bashEffect
              "sudo nsenter -t 77 -n tc qdisc replace dev eth0 parent 1:3 netem loss 10%".toList,
             bashEffect ("sudo nsenter -t 77 -n tc filter add dev eth0 protocol ip parent 1:0 "
              ++ "prio 3 u32 match ip dst 10.0.0.1 flowid 1:3").toList,
             bashEffect ("sudo nsenter -t 77 -n tc filter add dev eth0 protocol ip parent 1:0 "
              ++ "prio 3 u32 match ip dst 10.0.0.2 flowid 1:3").toList])
      ∧ InjectChaos (failingWorld [("DESTINATION_IPS".toList, "10.0.0.1,10.0.0.2".toList),
          ("NETEM_COMMAND".toList, "loss 10%".toList)]
          "sudo nsenter -t 77 -n tc qdisc replace dev eth0 parent 1:3 netem loss 10%".toList
          "Error: argument is wrong".toList)
          (detailsOf "containerd".toList "eth0".toList) 77 []
        = (Outcome.ret (some (GoError.exec "exit status 2".toList)),
            [bashEffect "sudo nsenter -t 77 -n tc qdisc replace dev eth0 root handle 1: prio".toList,
             bashEffect
              "sudo nsenter -t 77 -n tc qdisc replace dev eth0 parent 1:3 netem loss 10%".toList]) :=
  ⟨by decide,
    ((InjectChaos_filtered_program_in_order
      (quietWorld [("DESTINATION_IPS".toList, "10.0.0.1,10.0.0.1,10.0.0.2".toList),
        ("NETEM_COMMAND".toList, "loss 10%".toList)])
      (detailsOf "containerd".toList "eth0".toList) 77 [] (by decide) rfl).2.1
      (fun _ _ _ _ => rfl)).trans (by decide),
    ((InjectChaos_filtered_program_in_order
      (failingWorld [("DESTINATION_IPS".toList, "10.0.0.1,10.0.0.2".toList),
        ("NETEM_COMMAND".toList, "loss 10%".toList)]
        "sudo nsenter -t 77 -n tc qdisc replace dev eth0 parent 1:3 netem loss 10%".toList
        "Error: argument is wrong".toList)
      (detailsOf "containerd".toList "eth0".toList) 77 [] (by decide) rfl).2.2
      ["sudo nsenter -t 77 -n tc qdisc replace dev eth0 root handle 1: prio".toList]
      "sudo nsenter -t 77 -n tc qdisc replace dev eth0 parent 1:3 netem loss 10%".toList
      [("sudo nsenter -t 77 -n tc filter add dev eth0 protocol ip parent 1:0 "
          ++ "prio 3 u32 match ip dst 10.0.0.1 flowid 1:3").toList,
        ("sudo nsenter -t 77 -n tc filter add dev eth0 protocol ip parent 1:0 "
          ++ "prio 3 u32 match ip dst 10.0.0.2 flowid 1:3").toList]
      (GoError.exec "exit status 2".toList)
      (by decide)
      (by
        intro pre1 c1 pre2 h
        rcases pre1 with _ | ⟨a, pre1⟩
        · rw [List.nil_append] at h
          injection h with h1 h2
          subst h1
          decide
        · rw [List.cons_append] at h
          injection h with h1 h2
          exact absurd h2 (by simp))
      (by decide)).trans (by decide)⟩

/-- C5: with an empty `DESTINATION_IPS` and no pending signal, `InjectChaos`
issues exactly one command, the netem qdisc on the root of the configured
interface with the parameter string as given, and returns the error of that
command; no prio qdisc and no filter command is issued. -/
theorem InjectChaos_global_single_command (w : World)
    (experimentDetails : ExperimentDetails) (pid : Int) (t : List Effect)
    (hd : w.getenv "DESTINATION_IPS".toList = [])
    (hs : w.injectSignal t = false) :
    InjectChaos w experimentDetails pid t
      = (Outcome.ret (w.run t "/bin/bash".toList
            ["-c".toList, "sudo nsenter -t ".toList ++ formatInt pid
              ++ " -n tc qdisc replace dev ".toList ++ experimentDetails.NetworkInterface
              ++ " root netem ".toList ++ w.getenv "NETEM_COMMAND".toList]).err,
          t ++ [bashEffect ("sudo nsenter -t ".toList ++ formatInt pid
              ++ " -n tc qdisc replace dev ".toList ++ experimentDetails.NetworkInterface
              ++ " root netem ".toList ++ w.getenv "NETEM_COMMAND".toList)]) := by
  simp only [InjectChaos, hs, hd, if_true, Bool.false_eq_true, if_false, CombinedOutput,
    globalCmd, bashEffect]
  cases (w.run t "/bin/bash".toList
      ["-c".toList, "sudo nsenter -t ".toList ++ formatInt pid
        ++ " -n tc qdisc replace dev ".toList ++ experimentDetails.NetworkInterface
        ++ " root netem ".toList ++ w.getenv "NETEM_COMMAND".toList]).err <;> rfl

/-- Scenario S1: pid 4242, `eth0`, `delay 200ms`. -/
theorem InjectChaos_global_single_command_witness :
    (quietWorld [("NETEM_COMMAND".toList, "delay 200ms".toList)]).getenv
        "DESTINATION_IPS".toList = []
      ∧ InjectChaos (quietWorld [("NETEM_COMMAND".toList, "delay 200ms".toList)])
          (detailsOf "docker".toList "eth0".toList) 4242 []
        = (Outcome.ret none,
            [bashEffect
              "sudo nsenter -t 4242 -n tc qdisc replace dev eth0 root netem delay 200ms".toList]) :=
  ⟨by decide,
    (InjectChaos_global_single_command
      (quietWorld [("NETEM_COMMAND".toList, "delay 200ms".toList)])
      (detailsOf "docker".toList "eth0".toList) 4242 [] (by decide) rfl).trans (by decide)⟩

/-- C6 (the code at the failing input): `Killnetem` always deletes the root
qdisc of `eth0`. With `NETWORK_INTERFACE=eth1` the inject command programs
`eth1`, and the revert command is not the delete on `eth1`. -/
theorem Killnetem_deletes_eth0_not_configured_interface :
    (∀ (w : World) (PID : Int) (t : List Effect),
        (Killnetem w PID t).2
          = t ++ [bashEffect ("sudo nsenter -t ".toList ++ formatInt PID
              ++ " -n tc qdisc delete dev eth0 root".toList)])
      ∧ (InjectChaos (quietWorld [("NETEM_COMMAND".toList, "delay 200ms".toList)])
          (detailsOf "docker".toList "eth1".toList) 4242 []).2
        = [bashEffect
            "sudo nsenter -t 4242 -n tc qdisc replace dev eth1 root netem delay 200ms".toList]
      ∧ (Killnetem (quietWorld [("NETEM_COMMAND".toList, "delay 200ms".toList)]) 4242 []).2
        = [bashEffect "sudo nsenter -t 4242 -n tc qdisc delete dev eth0 root".toList]
      ∧ (Killnetem (quietWorld [("NETEM_COMMAND".toList, "delay 200ms".toList)]) 4242 []).2
        ≠ [bashEffect "sudo nsenter -t 4242 -n tc qdisc delete dev eth1 root".toList] := by
  refine ⟨?_, by decide, by decide, by decide⟩
  intro w PID t
  simp only [Killnetem, CombinedOutput, killCmd, bashEffect]
  cases (w.run t "/bin/bash".toList ["-c".toList, "sudo nsenter -t ".toList ++ formatInt PID
      ++ " -n tc qdisc delete dev eth0 root".toList]).err with
  | none => rfl
  | some e =>
    simp only
    split <;> rfl

/-! ## Decimal text of an `int` -/

theorem digitChar_toNat (d : Nat) (h : d < 10) : (digitChar d).toNat = 48 + d := by
  interval_cases d <;> rfl

theorem digitVal_digitChar (d : Nat) (h : d < 10) : digitVal (digitChar d) = some d := by
  have h2 : 48 + d ≤ 57 := by omega
  simp [digitVal, digitChar_toNat d h, h2]

/-- The text `ds` is a non-empty run of digits whose value is `n`. -/
theorem natDigits_spec (fuel n : Nat) (acc : GoString) (h : n < fuel) :
    ∃ ds : GoString, natDigits fuel n acc = ds ++ acc ∧ ds ≠ []
      ∧ (∀ c ∈ ds, 48 ≤ c.toNat ∧ c.toNat ≤ 57)
      ∧ ∀ a rest, digitsVal (ds ++ rest) a = digitsVal rest (a * 10 ^ ds.length + n) := by
  induction fuel generalizing n acc with
  | zero => omega
  | succ fuel ih =>
    by_cases hn : n < 10
    · refine ⟨[digitChar n], by simp [natDigits, hn], by simp, ?_, ?_⟩
      · intro c hc
        rw [List.mem_singleton] at hc
        rw [hc, digitChar_toNat n hn]
        omega
      · intro a rest
        simp [digitsVal, digitVal_digitChar n hn]
    · have hlt : n / 10 < fuel := by omega
      obtain ⟨ds, hds, hne, hdig, hval⟩ := ih (n / 10) (digitChar (n % 10) :: acc) hlt
      have hmod : n % 10 < 10 := Nat.mod_lt _ (by omega)
      refine ⟨ds ++ [digitChar (n % 10)], by simp [natDigits, hn, hds], by simp, ?_, ?_⟩
      · intro c hc
        rcases List.mem_append.1 hc with hc | hc
        · exact hdig c hc
        · rw [List.mem_singleton] at hc
          rw [hc, digitChar_toNat _ hmod]
          omega
      · intro a rest
        rw [List.append_assoc, hval]
        simp only [List.singleton_append, digitsVal, digitVal_digitChar _ hmod,
          List.length_append, List.length_singleton]
        congr 1
        rw [pow_succ]
        have := Nat.div_add_mod n 10
        nlinarith [this]

theorem formatInt_spec (n : Int) (h0 : 0 ≤ n) (hmax : n ≤ maxInt64) :
    (∀ c ∈ formatInt n, 48 ≤ c.toNat ∧ c.toNat ≤ 57) ∧ Atoi (formatInt n) = (n, none) := by
  obtain ⟨ds, hds, hne, hdig, hval⟩ := natDigits_spec (n.toNat + 1) n.toNat [] (by omega)
  have hf : formatInt n = ds := by
    simp only [formatInt, not_lt.2 h0, if_false, hds, List.append_nil]
  rw [hf]
  refine ⟨hdig, ?_⟩
  obtain ⟨c, cs, rfl⟩ := List.exists_cons_of_ne_nil hne
  have hc := hdig c (List.mem_cons_self _ _)
  have h1 : c ≠ '-' := by
    intro e; rw [e] at hc; revert hc; decide
  have h2 : c ≠ '+' := by
    intro e; rw [e] at hc; revert hc; decide
  have hv := hval 0 []
  simp only [List.append_nil, zero_mul, zero_add] at hv
  have hv' : digitsVal (c :: cs) 0 = some n.toNat := by
    rw [hv]; rfl
  have hcast : ((n.toNat : Nat) : Int) = n := Int.toNat_of_nonneg h0
  simp only [Atoi, parseDecimal, h1, h2, if_false, hv', Option.map_some', hcast,
    Bool.false_eq_true]
  rw [if_neg (not_lt.2 hmax)]

/-! ## Splitting on a one-character separator -/

theorem splitGo_single_cons (s x : Char) (xs cur : GoString) :
    splitGo [s] (x :: xs) 0 cur
      = if s = x then cur.reverse :: splitGo [s] xs 0 [] else splitGo [s] xs 0 (x :: cur) := by
  by_cases h : s = x
  · simp [splitGo, h, List.isPrefixOf]
  · simp [splitGo, h, List.isPrefixOf]

theorem splitGo_single_piece (s : Char) (ds rest cur : GoString) (h : ∀ c ∈ ds, c ≠ s) :
    splitGo [s] (ds ++ s :: rest) 0 cur = (cur.reverse ++ ds) :: splitGo [s] rest 0 [] := by
  induction ds generalizing cur with
  | nil => simp [splitGo_single_cons]
  | cons d ds ih =>
    have hd : s ≠ d := fun e => h d (List.mem_cons_self _ _) e.symm
    rw [List.cons_append, splitGo_single_cons, if_neg hd,
      ih (d :: cur) (fun c hc => h c (List.mem_cons_of_mem _ hc))]
    simp

theorem Split_proc_path (ds : GoString) (h : ∀ c ∈ ds, c ≠ '/') :
    (Split ("/proc/".toList ++ ds ++ "/ns/net".toList) "/".toList).get? 2 = some ds := by
  have e : "/proc/".toList ++ ds ++ "/ns/net".toList
      = [] ++ '/' :: ("proc".toList ++ '/' :: (ds ++ '/' :: "ns/net".toList)) := by
    simp
  have hp : ∀ c ∈ "proc".toList, c ≠ '/' := by decide
  have hsep : "/".toList = ['/'] := rfl
  rw [Split, e, hsep, splitGo_single_piece '/' [] _ [] (by simp),
    splitGo_single_piece '/' _ _ [] hp, splitGo_single_piece '/' ds _ [] h]
  rfl

/-! ## Decoding objects -/

theorem foldlM_no_field {σ : Type} (fields : List GoString)
    (setField : Nat → σ → JSON → Except GoError σ) (members : List (GoString × JSON))
    (cur : σ) (h : members.filter (fun m => (findField fields m.1).isSome) = []) :
    members.foldlM
      (fun d m =>
        match findField fields m.1 with
        | some i => setField i d m.2
        | none => Except.ok d)
      cur = Except.ok cur := by
  induction members generalizing cur with
  | nil => rfl
  | cons a rest ih =>
    cases ha : findField fields a.1 with
    | some i => simp [List.filter_cons, ha] at h
    | none =>
      have hrest : rest.filter (fun m => (findField fields m.1).isSome) = [] := by
        simpa [List.filter_cons, ha] using h
      rw [List.foldlM_cons]
      simp only [ha]
      exact ih cur hrest

theorem decodeStruct_soleField {σ : Type} (fields : List GoString)
    (setField : Nat → σ → JSON → Except GoError σ) (cur : σ)
    (members : List (GoString × JSON)) (i : Nat) (v : JSON)
    (h : soleField fields i members = some v) :
    decodeStruct fields setField cur (JSON.obj members) = setField i cur v := by
  simp only [decodeStruct]
  induction members generalizing cur with
  | nil => simp [soleField] at h
  | cons a rest ih =>
    rw [List.foldlM_cons]
    cases ha : findField fields a.1 with
    | none =>
      simp only [ha]
      apply ih
      simpa [soleField, List.filter_cons, ha] using h
    | some k =>
      simp only [ha]
      simp only [soleField, List.filter_cons, ha, Option.isSome_some, if_true] at h
      cases hf : rest.filter (fun m => (findField fields m.1).isSome) with
      | cons b l => simp [hf] at h
      | nil =>
        simp only [hf, ha] at h
        by_cases hk : k = i
        · subst hk
          simp only [if_true, Option.some.injEq] at h
          subst h
          have : (fun d => rest.foldlM
              (fun d m =>
                match findField fields m.1 with
                | some i => setField i d m.2
                | none => Except.ok d) d) = pure := by
            funext d
            exact foldlM_no_field fields setField rest d hf
          show setField k cur a.2 >>= _ = _
          rw [this, bind_pure]
        · simp [hk] at h

theorem decodeStruct_no_field {σ : Type} (fields : List GoString)
    (setField : Nat → σ → JSON → Except GoError σ) (cur : σ)
    (members : List (GoString × JSON))
    (h : ∀ m ∈ members, findField fields m.1 = none) :
    decodeStruct fields setField cur (JSON.obj members) = Except.ok cur := by
  simp only [decodeStruct]
  apply foldlM_no_field
  rw [List.filter_eq_nil_iff]
  intro m hm
  simp [h m hm]

theorem foldlM_proj_of_no_member {σ τ : Type} (fields : List GoString)
    (setField : Nat → σ → JSON → Except GoError σ) (π : σ → τ) (i : Nat)
    (hother : ∀ k d x d', k ≠ i → setField k d x = Except.ok d' → π d' = π d)
    (members : List (GoString × JSON)) (cur res : σ)
    (hnone : members.filter (fun m => findField fields m.1 == some i) = [])
    (h : members.foldlM
      (fun d m =>
        match findField fields m.1 with
        | some k => setField k d m.2
        | none => Except.ok d)
      cur = Except.ok res) :
    π res = π cur := by
  induction members generalizing cur with
  | nil =>
    rw [List.foldlM_nil] at h
    cases h
    rfl
  | cons a rest ih =>
    rw [List.foldlM_cons] at h
    cases ha : findField fields a.1 with
    | none =>
      simp only [ha] at h
      apply ih cur _ h
      simpa [List.filter_cons, ha] using hnone
    | some k =>
      have hk : k ≠ i := by
        intro e
        simp [List.filter_cons, ha, e] at hnone
      have hrest : rest.filter (fun m => findField fields m.1 == some i) = [] := by
        simpa [List.filter_cons, ha, hk] using hnone
      simp only [ha] at h
      cases hstep : setField k cur a.2 with
      | error err =>
        rw [hstep] at h
        cases h
      | ok d1 =>
        rw [hstep] at h
        rw [ih d1 hrest h]
        exact hother k cur a.2 d1 hk hstep

theorem decodeStruct_soleMember {σ τ : Type} (fields : List GoString)
    (setField : Nat → σ → JSON → Except GoError σ) (π : σ → τ) (i : Nat)
    (dec : τ → JSON → Except GoError τ)
    (hother : ∀ k d x d', k ≠ i → setField k d x = Except.ok d' → π d' = π d)
    (hi : ∀ d x d', setField i d x = Except.ok d' → dec (π d) x = Except.ok (π d'))
    (members : List (GoString × JSON)) (cur res : σ) (v : JSON)
    (hs : soleMember fields i members = some v)
    (h : decodeStruct fields setField cur (JSON.obj members) = Except.ok res) :
    dec (π cur) v = Except.ok (π res) := by
  simp only [decodeStruct] at h
  induction members generalizing cur with
  | nil => simp [soleMember] at hs
  | cons a rest ih =>
    rw [List.foldlM_cons] at h
    cases ha : findField fields a.1 with
    | none =>
      simp only [ha] at h
      apply ih cur _ h
      simpa [soleMember, List.filter_cons, ha] using hs
    | some k =>
      simp only [ha] at h
      cases hstep : setField k cur a.2 with
      | error err =>
        rw [hstep] at h
        cases h
      | ok d1 =>
        rw [hstep] at h
        by_cases hk : k = i
        · subst hk
          simp only [soleMember, List.filter_cons, ha, beq_self_eq_true, if_true] at hs
          cases hf : rest.filter (fun m => findField fields m.1 == some k) with
          | cons b l => simp [hf] at hs
          | nil =>
            simp only [hf, Option.some.injEq] at hs
            subst hs
            have := foldlM_proj_of_no_member fields setField π k hother rest d1 res hf h
            rw [this]
            exact hi cur a.2 d1 hstep
        · have hs' : soleMember fields i rest = some v := by
            simpa [soleMember, List.filter_cons, ha, hk] using hs
          have := ih d1 hs' h
          rw [hother k cur a.2 d1 hk hstep] at this
          exact this

theorem map_eq_ok {α β : Type} (x : Except GoError α) (f : α → β) (y : β)
    (h : x.map f = Except.ok y) : ∃ a, x = Except.ok a ∧ y = f a := by
  cases x with
  | error e => cases h
  | ok a =>
    refine ⟨a, rfl, ?_⟩
    cases h
    rfl

theorem decodeCrictlInspectResponse_info (mt : List (GoString × JSON)) (v : JSON)
    (cur res : CrictlInspectResponse)
    (hs : soleMember ["info".toList] 0 mt = some v)
    (h : decodeCrictlInspectResponse cur (JSON.obj mt) = Except.ok res) :
    decodeInfoDetails cur.Info v = Except.ok res.Info := by
  refine decodeStruct_soleMember _ _ (fun d => d.Info) 0 decodeInfoDetails ?_ ?_ mt cur res v hs h
  · intro k d x d' hk hd
    match k, hk with
    | k + 1, _ =>
      cases hd
      rfl
  · intro d x d' hd
    obtain ⟨a, ha, rfl⟩ := map_eq_ok _ _ _ hd
    exact ha

theorem decodeInfoDetails_runtimeSpec (mi : List (GoString × JSON)) (v : JSON)
    (cur res : InfoDetails)
    (hs : soleMember ["runtimeSpec".toList, "pid".toList] 0 mi = some v)
    (h : decodeInfoDetails cur (JSON.obj mi) = Except.ok res) :
    decodeRuntimeDetails cur.RuntimeSpec v = Except.ok res.RuntimeSpec := by
  refine decodeStruct_soleMember _ _ (fun d => d.RuntimeSpec) 0 decodeRuntimeDetails ?_ ?_
    mi cur res v hs h
  · intro k d x d' hk hd
    match k, hk with
    | 1, _ =>
      obtain ⟨a, _, rfl⟩ := map_eq_ok _ _ _ hd
      rfl
    | k + 2, _ =>
      cases hd
      rfl
  · intro d x d' hd
    obtain ⟨a, ha, rfl⟩ := map_eq_ok _ _ _ hd
    exact ha

theorem decodeInfoDetails_pid (mi : List (GoString × JSON)) (v : JSON)
    (cur res : InfoDetails)
    (hs : soleMember ["runtimeSpec".toList, "pid".toList] 1 mi = some v)
    (h : decodeInfoDetails cur (JSON.obj mi) = Except.ok res) :
    decodeInt cur.PID v = Except.ok res.PID := by
  refine decodeStruct_soleMember _ _ (fun d => d.PID) 1 decodeInt ?_ ?_ mi cur res v hs h
  · intro k d x d' hk hd
    match k, hk with
    | 0, _ =>
      obtain ⟨a, _, rfl⟩ := map_eq_ok _ _ _ hd
      rfl
    | k + 2, _ =>
      cases hd
      rfl
  · intro d x d' hd
    obtain ⟨a, ha, rfl⟩ := map_eq_ok _ _ _ hd
    exact ha

theorem decodeRuntimeDetails_linux (mr : List (GoString × JSON)) (v : JSON)
    (cur res : RuntimeDetails)
    (hs : soleMember ["linux".toList] 0 mr = some v)
    (h : decodeRuntimeDetails cur (JSON.obj mr) = Except.ok res) :
    decodeLinuxAttributes cur.Linux v = Except.ok res.Linux := by
  refine decodeStruct_soleMember _ _ (fun d => d.Linux) 0 decodeLinuxAttributes ?_ ?_
    mr cur res v hs h
  · intro k d x d' hk hd
    match k, hk with
    | k + 1, _ =>
      cases hd
      rfl
  · intro d x d' hd
    obtain ⟨a, ha, rfl⟩ := map_eq_ok _ _ _ hd
    exact ha

theorem decodeLinuxAttributes_namespaces (ml : List (GoString × JSON)) (v : JSON)
    (cur res : LinuxAttributes)
    (hs : soleMember ["namespaces".toList] 0 ml = some v)
    (h : decodeLinuxAttributes cur (JSON.obj ml) = Except.ok res) :
    decodeSlice ⟨[], []⟩ decodeNamespace cur.Namespaces v = Except.ok res.Namespaces := by
  refine decodeStruct_soleMember _ _ (fun d => d.Namespaces) 0
    (decodeSlice ⟨[], []⟩ decodeNamespace) ?_ ?_ ml cur res v hs h
  · intro k d x d' hk hd
    match k, hk with
    | k + 1, _ =>
      cases hd
      rfl
  · intro d x d' hd
    obtain ⟨a, ha, rfl⟩ := map_eq_ok _ _ _ hd
    exact ha

theorem decodeCells_nil {σ : Type} (zero : σ) (decodeElem : σ → JSON → Except GoError σ)
    (es : List JSON) (xs : List σ) (h : es.mapM (decodeElem zero) = Except.ok xs) :
    decodeCells zero decodeElem [] es = Except.ok xs := by
  induction es generalizing xs with
  | nil =>
    rw [List.mapM_nil] at h
    cases h
    rfl
  | cons e es ih =>
    rw [List.mapM_cons] at h
    cases hx : decodeElem zero e with
    | error err =>
      rw [hx] at h
      cases h
    | ok x =>
      rw [hx] at h
      cases hrest : es.mapM (decodeElem zero) with
      | error err =>
        rw [hrest] at h
        cases h
      | ok ys =>
        rw [hrest] at h
        cases h
        simp only [decodeCells, List.headD_nil, hx, List.tail_nil, ih ys hrest]

theorem decodeSlice_nil_elems {σ : Type} (zero : σ)
    (decodeElem : σ → JSON → Except GoError σ) (es : List JSON) (xs : List σ)
    (res : GoSlice σ) (h : es.mapM (decodeElem zero) = Except.ok xs)
    (hd : decodeSlice zero decodeElem ⟨[], []⟩ (JSON.arr es) = Except.ok res) :
    res.elems = xs := by
  cases es with
  | nil =>
    rw [List.mapM_nil] at h
    cases h
    simp only [decodeSlice] at hd
    cases hd
    rfl
  | cons e es =>
    simp only [decodeSlice, List.append_nil, decodeCells_nil zero decodeElem (e :: es) xs h] at hd
    cases hd
    rfl

/-! ## PID resolution on the documented shapes -/

theorem mapM_ok_of_forall {α β : Type} (f : α → Except GoError β) (l : List α)
    (h : ∀ a ∈ l, ∃ b, f a = Except.ok b) : ∃ bs, l.mapM f = Except.ok bs := by
  induction l with
  | nil => exact ⟨[], rfl⟩
  | cons a l ih =>
    obtain ⟨b, hb⟩ := h a (List.mem_cons_self _ _)
    obtain ⟨bs, hbs⟩ := ih (fun x hx => h x (List.mem_cons_of_mem _ hx))
    refine ⟨b :: bs, ?_⟩
    rw [List.mapM_cons, hb, hbs]
    rfl

theorem decodeInt_num (cur n : Int) (lit : GoString) (h : parseInt64 lit = some n) :
    decodeInt cur (JSON.num lit) = Except.ok n := by
  simp [decodeInt, h]

theorem decodeDockerInspectResponse_shape (ms0 ms1 : List (GoString × JSON)) (lit : GoString)
    (n : Int)
    (h0 : soleField ["state".toList] 0 ms0 = some (JSON.obj ms1))
    (h1 : soleField ["pid".toList] 0 ms1 = some (JSON.num lit))
    (hn : parseInt64 lit = some n) :
    decodeDockerInspectResponse ⟨⟨0⟩⟩ (JSON.obj ms0) = Except.ok ⟨⟨n⟩⟩ := by
  rw [decodeDockerInspectResponse, decodeStruct_soleField _ _ _ _ _ _ h0]
  simp only
  rw [decodeStateDetails, decodeStruct_soleField _ _ _ _ _ _ h1]
  simp only
  rw [decodeInt_num _ n lit hn]
  rfl

theorem parsePIDFromJSON_docker_shape (j : GoString) (v : JSON) (n : Int)
    (hj : parseJSON j = some v) (hv : DockerShape v n) :
    parsePIDFromJSON j "docker".toList = checkPID n := by
  obtain ⟨ms0, ms1, lit, rest, rfl, h0, h1, hn, hrest⟩ := hv
  obtain ⟨ds, hds⟩ := mapM_ok_of_forall (decodeDockerInspectResponse ⟨⟨0⟩⟩) rest hrest
  have hm : (JSON.obj ms0 :: rest).mapM (decodeDockerInspectResponse ⟨⟨0⟩⟩)
      = Except.ok (⟨⟨n⟩⟩ :: ds) := by
    rw [List.mapM_cons, decodeDockerInspectResponse_shape ms0 ms1 lit n h0 h1 hn, hds]
    rfl
  have hU : Unmarshal (decodeSlice ⟨⟨0⟩⟩ decodeDockerInspectResponse) j ⟨[], []⟩
      = Except.ok ⟨⟨⟨n⟩⟩ :: ds, []⟩ := by
    simp only [Unmarshal, hj, decodeSlice, List.append_nil,
      decodeCells_nil _ _ (JSON.obj ms0 :: rest) _ hm]
    rfl
  rw [parsePIDFromJSON, if_pos rfl, hU]

theorem namespacePID_of_no_network (l : List Namespace) (pid : Int)
    (h : ∀ ns ∈ l, ns.Type_ ≠ "network".toList) : namespacePID l pid = Outcome.ret pid := by
  induction l with
  | nil => rfl
  | cons a l ih =>
    rw [namespacePID, if_neg (h a (List.mem_cons_self _ _))]
    exact ih (fun ns hns => h ns (List.mem_cons_of_mem _ hns))

theorem namespacePID_append_of_no_network (pre l : List Namespace) (pid : Int)
    (h : ∀ ns ∈ pre, ns.Type_ ≠ "network".toList) :
    namespacePID (pre ++ l) pid = namespacePID l pid := by
  induction pre with
  | nil => rfl
  | cons a pre ih =>
    rw [List.cons_append, namespacePID, if_neg (h a (List.mem_cons_self _ _))]
    exact ih (fun ns hns => h ns (List.mem_cons_of_mem _ hns))

theorem namespacePID_single_network (pre post : List Namespace) (n : Int)
    (h0 : 0 ≤ n) (hmax : n ≤ maxInt64)
    (h : ∀ ns ∈ pre ++ post, ns.Type_ ≠ "network".toList) :
    namespacePID (pre ++ ⟨"network".toList,
        "/proc/".toList ++ formatInt n ++ "/ns/net".toList⟩ :: post) 0 = Outcome.ret n := by
  obtain ⟨hdig, hatoi⟩ := formatInt_spec n h0 hmax
  have hslash : ∀ c ∈ formatInt n, c ≠ '/' := by
    intro c hc e
    have := hdig c hc
    rw [e] at this
    revert this
    decide
  rw [namespacePID_append_of_no_network pre _ 0
    (fun ns hns => h ns (List.mem_append_left _ hns))]
  rw [namespacePID, if_pos rfl]
  simp only
  rw [Split_proc_path (formatInt n) hslash]
  simp only [hatoi]
  exact namespacePID_of_no_network post n (fun ns hns => h ns (List.mem_append_right _ hns))

theorem parsePIDFromJSON_containerd_shape (j : GoString) (v : JSON) (n : Int)
    (h0 : 0 ≤ n) (hmax : n ≤ maxInt64)
    (hj : parseJSON j = some v) (hv : ContainerdShape v n) :
    parsePIDFromJSON j "containerd".toList = checkPID n := by
  obtain ⟨mt, mi, mr, ml, elems, pre, post, rfl, ⟨resp, hresp⟩, ht, hi, hr, hl, helems,
    hother⟩ := hv
  have h1 := decodeCrictlInspectResponse_info mt _ _ resp ht hresp
  have h2 := decodeInfoDetails_runtimeSpec mi _ _ resp.Info hi h1
  have h3 := decodeRuntimeDetails_linux mr _ _ resp.Info.RuntimeSpec hr h2
  have h4 := decodeLinuxAttributes_namespaces ml _ _ resp.Info.RuntimeSpec.Linux hl h3
  have h5 : resp.Info.RuntimeSpec.Linux.Namespaces.elems
      = pre ++ ⟨"network".toList, "/proc/".toList ++ formatInt n ++ "/ns/net".toList⟩ :: post :=
    decodeSlice_nil_elems _ _ elems _ _ helems h4
  have hU : Unmarshal decodeCrictlInspectResponse j ⟨zeroInfoDetails⟩ = Except.ok resp := by
    simp only [Unmarshal, hj]
    exact hresp
  rw [parsePIDFromJSON, if_neg (by decide), if_pos rfl, hU]
  simp only
  rw [h5, namespacePID_single_network pre post n h0 hmax hother]

theorem parsePIDFromJSON_crio_shape (j : GoString) (v : JSON) (n : Int)
    (hj : parseJSON j = some v) (hv : CrioShape v n) :
    parsePIDFromJSON j "crio".toList = checkPID n := by
  obtain ⟨mt, mi, lit, rfl, ⟨info, hinfo, hzero⟩, ⟨resp, hresp⟩, ht, hi, hn⟩ := hv
  have h1 := decodeCrictlInspectResponse_info mt _ _ resp ht hresp
  have h2 := decodeInfoDetails_pid mi _ _ resp.Info hi h1
  have h3 : resp.Info.PID = n := by
    rw [decodeInt_num _ n lit hn] at h2
    cases h2
    rfl
  have hU1 : Unmarshal decodeInfoDetails j zeroInfoDetails = Except.ok info := by
    simp only [Unmarshal, hj]
    exact hinfo
  have hU2 : Unmarshal decodeCrictlInspectResponse j ⟨zeroInfoDetails⟩ = Except.ok resp := by
    simp only [Unmarshal, hj]
    exact hresp
  rw [parsePIDFromJSON, if_neg (by decide), if_neg (by decide), if_pos rfl, hU1]
  simp only
  rw [if_pos hzero, hU2]
  simp only
  rw [h3]

theorem checkPID_pos (n : Int) (h : 0 < n) : checkPID n = Outcome.ret (Except.ok n) := by
  rw [checkPID, if_neg (by omega)]

theorem checkPID_zero : checkPID 0 = Outcome.ret (Except.error pidNotFound) := rfl

/-- C7: for every positive value `n` of Go's 64-bit `int`, `parsePIDFromJSON`
returns `n` without error on the documented shape of each runtime: a docker
array whose first element has `State.Pid = n` (keys matched case-insensitively),
a containerd object whose `info.runtimeSpec.linux.namespaces` has a single entry
of type `network` with path `/proc/<n>/ns/net`, a crio object with
`info.pid = n`. -/
theorem parsePIDFromJSON_documented_shape_returns_pid (n : Int) (hn : 0 < n)
    (hmax : n ≤ maxInt64) :
    (∀ j v, parseJSON j = some v → DockerShape v n →
        parsePIDFromJSON j "docker".toList = Outcome.ret (Except.ok n))
      ∧ (∀ j v, parseJSON j = some v → ContainerdShape v n →
        parsePIDFromJSON j "containerd".toList = Outcome.ret (Except.ok n))
      ∧ (∀ j v, parseJSON j = some v → CrioShape v n →
        parsePIDFromJSON j "crio".toList = Outcome.ret (Except.ok n)) := by
  refine ⟨?_, ?_, ?_⟩
  · intro j v hj hv
    rw [parsePIDFromJSON_docker_shape j v n hj hv, checkPID_pos n hn]
  · intro j v hj hv
    rw [parsePIDFromJSON_containerd_shape j v n (le_of_lt hn) hmax hj hv, checkPID_pos n hn]
  · intro j v hj hv
    rw [parsePIDFromJSON_crio_shape j v n hj hv, checkPID_pos n hn]

set_option maxRecDepth 4000 in
/-- The three documented shapes with PID 4242, read from their JSON text; the
containerd and crio outputs carry both `pid` and `runtimeSpec` in `info`. -/
theorem parsePIDFromJSON_documented_shape_returns_pid_witness :
    (0 : Int) < 4242 ∧ (4242 : Int) ≤ maxInt64
      ∧ parsePIDFromJSON dockerDoc "docker".toList = Outcome.ret (Except.ok 4242)
      ∧ parsePIDFromJSON containerdDoc "containerd".toList = Outcome.ret (Except.ok 4242)
      ∧ parsePIDFromJSON crioDoc "crio".toList = Outcome.ret (Except.ok 4242) :=
  ⟨by decide, by decide,
    (parsePIDFromJSON_documented_shape_returns_pid 4242 (by decide) (by decide)).1 dockerDoc
      (JSON.arr [JSON.obj [("Id".toList, JSON.str "abc".toList),
        ("State".toList, JSON.obj [("Status".toList, JSON.str "running".toList),
          ("Pid".toList, JSON.num "4242".toList)])]])
      rfl
      ⟨_, _, _, [], rfl, rfl, rfl, rfl, by simp⟩,
    (parsePIDFromJSON_documented_shape_returns_pid 4242 (by decide) (by decide)).2.1
      containerdDoc
      (JSON.obj [("status".toList, JSON.obj [("id".toList, JSON.str "abc".toList)]),
        ("info".toList, JSON.obj [("sandboxID".toList, JSON.str "s".toList),
          ("pid".toList, JSON.num "4242".toList),
          ("runtimeSpec".toList, JSON.obj [("linux".toList,
            JSON.obj [("namespaces".toList, JSON.arr [
              JSON.obj [("type".toList, JSON.str "pid".toList)],
              JSON.obj [("type".toList, JSON.str "ipc".toList)],
              JSON.obj [("type".toList, JSON.str "network".toList),
                ("path".toList, JSON.str "/proc/4242/ns/net".toList)]])])])])])
      rfl
      ⟨_, _, _, _, _, [⟨"pid".toList, []⟩, ⟨"ipc".toList, []⟩], [], rfl, ⟨_, rfl⟩, rfl, rfl,
        rfl, rfl, rfl, by decide⟩,
    (parsePIDFromJSON_documented_shape_returns_pid 4242 (by decide) (by decide)).2.2 crioDoc
      (JSON.obj [("status".toList, JSON.obj [("id".toList, JSON.str "abc".toList)]),
        ("info".toList, JSON.obj [("sandboxID".toList, JSON.str "s".toList),
          ("pid".toList, JSON.num "4242".toList),
          ("runtimeSpec".toList, JSON.obj [("linux".toList,
            JSON.obj [("namespaces".toList, JSON.arr [
              JSON.obj [("type".toList, JSON.str "network".toList),
                ("path".toList, JSON.str "/var/run/netns/x".toList)]])])])])])
      rfl
      ⟨_, _, _, rfl, ⟨_, rfl, rfl⟩, ⟨_, rfl⟩, rfl, rfl, rfl⟩⟩

/-- C8: on a document of the documented shape whose PID is 0, `parsePIDFromJSON`
returns the error "No running target container found" for each of the three
runtimes, never a PID; in particular the crio input with `info.pid` 0 fails. -/
theorem parsePIDFromJSON_zero_pid_fails :
    (∀ j v, parseJSON j = some v → DockerShape v 0 →
        parsePIDFromJSON j "docker".toList = Outcome.ret (Except.error pidNotFound))
      ∧ (∀ j v, parseJSON j = some v → ContainerdShape v 0 →
        parsePIDFromJSON j "containerd".toList = Outcome.ret (Except.error pidNotFound))
      ∧ (∀ j v, parseJSON j = some v → CrioShape v 0 →
        parsePIDFromJSON j "crio".toList = Outcome.ret (Except.error pidNotFound))
      ∧ parsePIDFromJSON "\x7b\"info\":\x7b\"pid\":0\x7d\x7d".toList "crio".toList
        = Outcome.ret (Except.error
            (GoError.errorf "[cri]: No running target container found, pid: 0".toList)) := by
  refine ⟨?_, ?_, ?_, rfl⟩
  · intro j v hj hv
    rw [parsePIDFromJSON_docker_shape j v 0 hj hv, checkPID_zero]
  · intro j v hj hv
    rw [parsePIDFromJSON_containerd_shape j v 0 (le_refl 0) (by decide) hj hv, checkPID_zero]
  · intro j v hj hv
    rw [parsePIDFromJSON_crio_shape j v 0 hj hv, checkPID_zero]

/-- The three documented shapes with PID 0, read from their JSON text; the
containerd output and the second crio output carry both `pid` and `runtimeSpec`
in `info`. -/
theorem parsePIDFromJSON_zero_pid_fails_witness :
    parsePIDFromJSON dockerZeroDoc "docker".toList = Outcome.ret (Except.error pidNotFound)
      ∧ parsePIDFromJSON containerdZeroDoc "containerd".toList
        = Outcome.ret (Except.error pidNotFound)
      ∧ parsePIDFromJSON crioZeroDoc "crio".toList = Outcome.ret (Except.error pidNotFound)
      ∧ parsePIDFromJSON crioZeroFullDoc "crio".toList
        = Outcome.ret (Except.error pidNotFound) :=
  ⟨parsePIDFromJSON_zero_pid_fails.1 dockerZeroDoc
      (JSON.arr [JSON.obj [("State".toList, JSON.obj [("Pid".toList, JSON.num "0".toList)])]])
      rfl
      ⟨_, _, _, [], rfl, rfl, rfl, rfl, by simp⟩,
    parsePIDFromJSON_zero_pid_fails.2.1 containerdZeroDoc
      (JSON.obj [("info".toList, JSON.obj [("pid".toList, JSON.num "0".toList),
        ("runtimeSpec".toList, JSON.obj [("linux".toList,
          JSON.obj [("namespaces".toList, JSON.arr [
            JSON.obj [("type".toList, JSON.str "network".toList),
              ("path".toList, JSON.str "/proc/0/ns/net".toList)]])])])])])
      rfl
      ⟨_, _, _, _, _, [], [], rfl, ⟨_, rfl⟩, rfl, rfl, rfl, rfl, rfl, by decide⟩,
    parsePIDFromJSON_zero_pid_fails.2.2.1 crioZeroDoc
      (JSON.obj [("info".toList, JSON.obj [("pid".toList, JSON.num "0".toList)])])
      rfl
      ⟨_, _, _, rfl, ⟨_, rfl, rfl⟩, ⟨_, rfl⟩, rfl, rfl, rfl⟩,
    parsePIDFromJSON_zero_pid_fails.2.2.1 crioZeroFullDoc
      (JSON.obj [("status".toList, JSON.obj [("id".toList, JSON.str "abc".toList)]),
        ("info".toList, JSON.obj [("pid".toList, JSON.num "0".toList),
          ("runtimeSpec".toList, JSON.obj [("linux".toList,
            JSON.obj [("namespaces".toList, JSON.arr [
              JSON.obj [("type".toList, JSON.str "network".toList),
                ("path".toList, JSON.str "/var/run/netns/x".toList)]])])])])])
      rfl
      ⟨_, _, _, rfl, ⟨_, rfl, rfl⟩, ⟨_, rfl⟩, rfl, rfl, rfl⟩⟩

/-- C9 (the code at the failing inputs): `parsePIDFromJSON` aborts on an index
out of range, returning neither a PID nor an error, for the docker output `[]`
and for a containerd output whose network namespace path is `/proc`. -/
theorem parsePIDFromJSON_panics_on_missing_pid :
    parsePIDFromJSON "[]".toList "docker".toList = Outcome.panic
      ∧ parsePIDFromJSON containerdShortPathDoc "containerd".toList = Outcome.panic :=
  ⟨rfl, rfl⟩

/-! ## The resolve phase of the lifecycle -/

theorem isResolveEffect_singleton (x : Effect) (hx : isResolveEffect x = true) :
    ∀ e ∈ [x], isResolveEffect e = true := by
  intro e he
  rw [List.mem_singleton] at he
  rw [he]
  exact hx

theorem GetContainerID_trace (w : World) (experimentDetails : ExperimentDetails)
    (t : List Effect) :
    ∃ l, (GetContainerID w experimentDetails t).2 = t ++ l
      ∧ ∀ e ∈ l, isResolveEffect e = true := by
  unfold GetContainerID
  by_cases h1 : experimentDetails.ContainerRuntime = "docker".toList
  · simp only [h1, if_true, CombinedOutput]
    split <;> exact ⟨[_], rfl, isResolveEffect_singleton _ rfl⟩
  · by_cases h2 : experimentDetails.ContainerRuntime = "containerd".toList
        ∨ experimentDetails.ContainerRuntime = "crio".toList
    · simp only [h1, if_false, h2, if_true]
      split
      · exact ⟨[_], rfl, isResolveEffect_singleton _ rfl⟩
      · split <;> exact ⟨[_], rfl, isResolveEffect_singleton _ rfl⟩
    · simp only [h1, if_false, h2]
      exact ⟨[], by simp, by simp⟩

theorem GetPID_trace (w : World) (experimentDetails : ExperimentDetails)
    (containerID : GoString) (t : List Effect) :
    ∃ l, (GetPID w experimentDetails containerID t).2 = t ++ l
      ∧ ∀ e ∈ l, isResolveEffect e = true := by
  unfold GetPID
  by_cases h1 : experimentDetails.ContainerRuntime = "docker".toList
  · simp only [h1, if_true, CombinedOutput]
    split
    · exact ⟨[_], rfl, isResolveEffect_singleton _ rfl⟩
    · split <;> exact ⟨[_], rfl, isResolveEffect_singleton _ rfl⟩
  · by_cases h2 : experimentDetails.ContainerRuntime = "containerd".toList
        ∨ experimentDetails.ContainerRuntime = "crio".toList
    · simp only [h1, if_false, h2, if_true, CombinedOutput]
      split
      · exact ⟨[_], rfl, isResolveEffect_singleton _ rfl⟩
      · split <;> exact ⟨[_], rfl, isResolveEffect_singleton _ rfl⟩
    · simp only [h1, if_false, h2]
      exact ⟨[], by simp, by simp⟩

theorem not_mem_of_forall_isResolveEffect (l : List Effect) (e : Effect)
    (h : ∀ x ∈ l, isResolveEffect x = true) (he : isResolveEffect e = false) : e ∉ l := by
  intro hm
  rw [h e hm] at he
  exact Bool.noConfusion he

/-- C10: if the container-ID lookup or the PID resolution returns an error,
`PreparePodNetworkChaos` returns that error, and all it has done is the lookups:
no command was run through `/bin/bash` (so no inject and no revert command), the
abort watcher was not started and no event was emitted. An unsupported runtime
fails in this way without any effect. -/
theorem PreparePodNetworkChaos_resolve_failure (w : World)
    (experimentsDetails : ExperimentDetails) (t : List Effect) :
    (∀ err,
        ((GetContainerID w experimentsDetails t).1 = Outcome.ret (Except.error err)
          ∨ ∃ containerID,
              (GetContainerID w experimentsDetails t).1 = Outcome.ret (Except.ok containerID)
              ∧ (GetPID w experimentsDetails containerID
                  (GetContainerID w experimentsDetails t).2).1
                = Outcome.ret (Except.error err)) →
        ∃ lookups,
          PreparePodNetworkChaos w experimentsDetails t
            = (Outcome.ret (some err), t ++ lookups)
          ∧ (∀ name args, Effect.command name args ∈ lookups → name ≠ "/bin/bash".toList)
          ∧ (∀ pid, Effect.goAbortWatcher pid ∉ lookups)
          ∧ (∀ reason msg type, Effect.event reason msg type ∉ lookups)
          ∧ (∀ seconds, Effect.waitForDuration seconds ∉ lookups))
      ∧ (experimentsDetails.ContainerRuntime ≠ "docker".toList →
          experimentsDetails.ContainerRuntime ≠ "containerd".toList →
          experimentsDetails.ContainerRuntime ≠ "crio".toList →
          PreparePodNetworkChaos w experimentsDetails t
            = (Outcome.ret (some (GoError.errorf (experimentsDetails.ContainerRuntime
                ++ " container runtime not suported".toList))), t)) := by
  have key : ∀ l : List Effect, (∀ e ∈ l, isResolveEffect e = true) →
      (∀ name args, Effect.command name args ∈ l → name ≠ "/bin/bash".toList)
      ∧ (∀ pid, Effect.goAbortWatcher pid ∉ l)
      ∧ (∀ reason msg type, Effect.event reason msg type ∉ l)
      ∧ (∀ seconds, Effect.waitForDuration seconds ∉ l) := by
    intro l hl
    refine ⟨?_, ?_, ?_, ?_⟩
    · intro name args hm hname
      have := hl _ hm
      rw [hname] at this
      exact Bool.noConfusion this
    · intro pid
      exact not_mem_of_forall_isResolveEffect l _ hl rfl
    · intro reason msg type
      exact not_mem_of_forall_isResolveEffect l _ hl rfl
    · intro seconds
      exact not_mem_of_forall_isResolveEffect l _ hl rfl
  refine ⟨?_, ?_⟩
  · intro err h
    obtain ⟨l1, hl1, hres1⟩ := GetContainerID_trace w experimentsDetails t
    rcases h with h | ⟨containerID, h, h2⟩
    · refine ⟨l1, ?_, key l1 hres1⟩
      have hp : GetContainerID w experimentsDetails t
          = (Outcome.ret (Except.error err), t ++ l1) := Prod.ext h hl1
      simp only [PreparePodNetworkChaos, hp]
    · rw [hl1] at h2
      obtain ⟨l2, hl2, hres2⟩ := GetPID_trace w experimentsDetails containerID (t ++ l1)
      have hp : GetContainerID w experimentsDetails t
          = (Outcome.ret (Except.ok containerID), t ++ l1) := Prod.ext h hl1
      have hq : GetPID w experimentsDetails containerID (t ++ l1)
          = (Outcome.ret (Except.error err), t ++ l1 ++ l2) := Prod.ext h2 hl2
      refine ⟨l1 ++ l2, ?_, key (l1 ++ l2) ?_⟩
      · simp only [PreparePodNetworkChaos, hp, hq, List.append_assoc]
      · intro e he
        rcases List.mem_append.1 he with he | he
        · exact hres1 e he
        · exact hres2 e he
  · intro h1 h2 h3
    have hp : GetContainerID w experimentsDetails t
        = (Outcome.ret (Except.error (GoError.errorf (experimentsDetails.ContainerRuntime
            ++ " container runtime not suported".toList))), t) := by
      unfold GetContainerID
      rw [if_neg h1, if_neg (not_or.2 ⟨h2, h3⟩)]
    simp only [PreparePodNetworkChaos, hp]

/-- Scenario S6 (crio, `info.pid` 0): only the pod read and the inspect command
are performed. An unknown runtime `rkt` fails with no effect at all. -/
theorem PreparePodNetworkChaos_resolve_failure_witness :
    PreparePodNetworkChaos (crioWorld crioZeroDoc) crioDetails []
        = (Outcome.ret (some pidNotFound),
            [Effect.getPod "prod".toList "web".toList,
             Effect.command "sudo".toList
              ["crictl".toList, "-i".toList, "unix:///run/crio/crio.sock".toList, "-r".toList,
                "unix:///run/crio/crio.sock".toList, "inspect".toList, "abc".toList]])
      ∧ PreparePodNetworkChaos (crioWorld crioZeroDoc) (detailsOf "rkt".toList "eth0".toList) []
        = (Outcome.ret (some (GoError.errorf "rkt container runtime not suported".toList)), []) := by
  refine ⟨?_, ?_⟩
  · obtain ⟨lookups, h, _⟩ :=
      (PreparePodNetworkChaos_resolve_failure (crioWorld crioZeroDoc) crioDetails []).1
        pidNotFound (Or.inr ⟨"abc".toList, rfl, rfl⟩)
    rw [h]
    have : (PreparePodNetworkChaos (crioWorld crioZeroDoc) crioDetails []).2
        = [Effect.getPod "prod".toList "web".toList,
           Effect.command "sudo".toList
            ["crictl".toList, "-i".toList, "unix:///run/crio/crio.sock".toList, "-r".toList,
              "unix:///run/crio/crio.sock".toList, "inspect".toList, "abc".toList]] := rfl
    rw [h] at this
    simp only at this
    rw [this]
  · exact ((PreparePodNetworkChaos_resolve_failure (crioWorld crioZeroDoc)
      (detailsOf "rkt".toList "eth0".toList) []).2 (by decide) (by decide) (by decide)).trans rfl

/-! ## The abort watcher -/

theorem Killnetem_trace (w : World) (PID : Int) (t : List Effect) :
    (Killnetem w PID t).2 = t ++ [bashEffect (killCmd PID)] := by
  simp only [Killnetem, CombinedOutput, bashEffect]
  cases (w.run t "/bin/bash".toList ["-c".toList, killCmd PID]).err with
  | none => rfl
  | some e =>
    simp only
    split <;> rfl

theorem revertRetries_succ (w : World) (targetPID : Int) (retry : Nat) (t : List Effect) :
    revertRetries w targetPID (retry + 1) t
      = revertRetries w targetPID retry ((Killnetem w targetPID t).2 ++ [Effect.sleep 1]) := by
  rw [revertRetries]
  rcases h : Killnetem w targetPID t with ⟨_ | e, t1⟩ <;> rfl

/-- C11: once a signal is delivered to the `abort` channel, `abortWatcher` calls
`Killnetem` on the target PID exactly three times, each followed by a sleep of
one second, whatever the world answers to each attempt, and then ends the
process with exit code 1. -/
theorem abortWatcher_three_reverts_then_exit (w : World) (targetPID : Int) (t : List Effect) :
    abortWatcher w true targetPID t
        = (some (Outcome.exit 1),
            (Killnetem w targetPID
              ((Killnetem w targetPID
                ((Killnetem w targetPID t).2 ++ [Effect.sleep 1])).2
                  ++ [Effect.sleep 1])).2 ++ [Effect.sleep 1])
      ∧ (abortWatcher w true targetPID t).2
        = t ++ [bashEffect (killCmd targetPID), Effect.sleep 1,
                bashEffect (killCmd targetPID), Effect.sleep 1,
                bashEffect (killCmd targetPID), Effect.sleep 1]
      ∧ ((abortWatcher w true targetPID t).2.drop t.length).count
          (bashEffect (killCmd targetPID)) = 3 := by
  have h1 : abortWatcher w true targetPID t
      = (some (Outcome.exit 1),
          (Killnetem w targetPID
            ((Killnetem w targetPID
              ((Killnetem w targetPID t).2 ++ [Effect.sleep 1])).2
                ++ [Effect.sleep 1])).2 ++ [Effect.sleep 1]) := by
    simp only [abortWatcher, if_true, revertRetries_succ]
    rfl
  have h2 : (abortWatcher w true targetPID t).2
      = t ++ [bashEffect (killCmd targetPID), Effect.sleep 1,
              bashEffect (killCmd targetPID), Effect.sleep 1,
              bashEffect (killCmd targetPID), Effect.sleep 1] := by
    rw [h1]
    simp only [Killnetem_trace, List.append_assoc, List.singleton_append, List.cons_append,
      List.nil_append]
  refine ⟨h1, h2, ?_⟩
  rw [h2, List.drop_left]
  simp [bashEffect]

/-! ## The signal check of the injection -/

/-- C12: if the `inject` channel already holds a signal when `InjectChaos` is
called, then whatever `DESTINATION_IPS` and the other settings are, no command
is issued (the trace is unchanged) and the process ends with exit code 1. -/
theorem InjectChaos_exits_on_pending_signal (w : World)
    (experimentDetails : ExperimentDetails) (pid : Int) (t : List Effect)
    (hs : w.injectSignal t = true) :
    InjectChaos w experimentDetails pid t = (Outcome.exit 1, t) ∧ (1 : Int) ≠ 0 := by
  refine ⟨?_, by decide⟩
  simp only [InjectChaos, hs, if_true]

/-- A pending signal stops the global program of scenario S1 and the filtered
program of scenario S2 before any command. -/
theorem InjectChaos_exits_on_pending_signal_witness :
    (signalledWorld [("NETEM_COMMAND".toList, "delay 200ms".toList)]).injectSignal [] = true
      ∧ InjectChaos (signalledWorld [("NETEM_COMMAND".toList, "delay 200ms".toList)])
          (detailsOf "docker".toList "eth0".toList) 4242 [] = (Outcome.exit 1, [])
      ∧ InjectChaos (signalledWorld [("DESTINATION_IPS".toList,
            "10.0.0.1,10.0.0.1,10.0.0.2".toList), ("NETEM_COMMAND".toList, "loss 10%".toList)])
          (detailsOf "containerd".toList "eth0".toList) 77 [] = (Outcome.exit 1, []) :=
  ⟨rfl,
    (InjectChaos_exits_on_pending_signal
      (signalledWorld [("NETEM_COMMAND".toList, "delay 200ms".toList)])
      (detailsOf "docker".toList "eth0".toList) 4242 [] rfl).1,
    (InjectChaos_exits_on_pending_signal
      (signalledWorld [("DESTINATION_IPS".toList, "10.0.0.1,10.0.0.1,10.0.0.2".toList),
        ("NETEM_COMMAND".toList, "loss 10%".toList)])
      (detailsOf "containerd".toList "eth0".toList) 77 [] rfl).1⟩

/-! ## Container lookup through the pod status -/

theorem splitGo_of_not_Contains (sep s cur : GoString) (h : Contains s sep = false) :
    splitGo sep s 0 cur = [cur.reverse ++ s] := by
  induction s generalizing cur with
  | nil => simp [splitGo]
  | cons c cs ih =>
    rw [Contains, Bool.or_eq_false_iff] at h
    rw [splitGo, if_neg (by rw [h.1]; exact Bool.false_ne_true), ih (c :: cur) h.2]
    simp

/-- A container ID without `//` splits into a single piece, so indexing the
pieces at 1 is out of range. -/
theorem findContainerID_panics_without_separator (target : GoString)
    (pre post : List ContainerStatus) (c : ContainerStatus) (containerID : GoString)
    (hpre : ∀ x ∈ pre, x.Name ≠ target) (hc : c.Name = target)
    (hid : Contains c.ContainerID "//".toList = false) :
    findContainerID target (pre ++ c :: post) containerID = Outcome.panic := by
  induction pre with
  | nil =>
    rw [List.nil_append, findContainerID, if_pos hc, Split,
      splitGo_of_not_Contains _ _ [] hid]
    rfl
  | cons a pre ih =>
    rw [List.cons_append, findContainerID, if_neg (hpre a (List.mem_cons_self _ _))]
    exact ih (fun x hx => hpre x (List.mem_cons_of_mem _ hx))

theorem splitGo_scheme (scheme id cur : GoString) (hs : ∀ x ∈ scheme, x ≠ '/')
    (hid : Contains id "//".toList = false) :
    splitGo "//".toList (scheme ++ "//".toList ++ id) 0 cur = [cur.reverse ++ scheme, id] := by
  induction scheme generalizing cur with
  | nil =>
    have e : ([] : GoString) ++ "//".toList ++ id = '/' :: '/' :: id := rfl
    have hp : List.isPrefixOf "//".toList ('/' :: '/' :: id) = true := by
      simp [List.isPrefixOf]
    rw [e, splitGo, if_pos hp]
    have hl : "//".toList.length - 1 = 1 := rfl
    rw [hl, splitGo, splitGo_of_not_Contains _ _ [] hid]
    simp
  | cons a scheme ih =>
    have ha : a ≠ '/' := hs a (List.mem_cons_self _ _)
    have hp : List.isPrefixOf "//".toList (a :: (scheme ++ "//".toList ++ id)) = false := by
      have : ("//".toList : GoString) = '/' :: ['/'] := rfl
      rw [this, List.isPrefixOf]
      simp [Ne.symm ha]
    have e : a :: scheme ++ "//".toList ++ id = a :: (scheme ++ "//".toList ++ id) := rfl
    rw [e, splitGo, if_neg (by rw [hp]; exact Bool.false_ne_true),
      ih (a :: cur) (fun x hx => hs x (List.mem_cons_of_mem _ hx))]
    simp

/-- For the first status named as the target, an ID `<scheme>://<id>` whose
scheme has no `/` and whose `<id>` has no `//` gives `<id>`. -/
theorem findContainerID_scheme_id (target scheme id : GoString)
    (pre post : List ContainerStatus) (containerID : GoString)
    (hpre : ∀ x ∈ pre, x.Name ≠ target) (hs : ∀ x ∈ scheme, x ≠ '/')
    (hid : Contains id "//".toList = false) :
    findContainerID target (pre ++ ⟨target, scheme ++ "//".toList ++ id⟩ :: post) containerID
      = Outcome.ret id := by
  induction pre with
  | nil =>
    rw [List.nil_append, findContainerID, if_pos rfl, Split, splitGo_scheme scheme id [] hs hid]
    rfl
  | cons a pre ih =>
    rw [List.cons_append, findContainerID, if_neg (hpre a (List.mem_cons_self _ _))]
    exact ih (fun x hx => hpre x (List.mem_cons_of_mem _ hx))

/-- C13 (the code at the failing input): for containerd and for crio, when the
target container has not started and its `containerID` is the empty string,
`GetContainerID` aborts on an index out of range after reading the pod; an ID of
the documented form is returned without its scheme. -/
theorem GetContainerID_panics_on_empty_containerID :
    GetContainerID (podWorld [⟨"app".toList, []⟩]) containerdDetails []
        = (Outcome.panic, [Effect.getPod "prod".toList "web".toList])
      ∧ GetContainerID (podWorld [⟨"app".toList, []⟩]) crioDetails []
        = (Outcome.panic, [Effect.getPod "prod".toList "web".toList])
      ∧ GetContainerID (podWorld [⟨"sidecar".toList, "containerd://0a1b".toList⟩,
            ⟨"app".toList, "containerd".toList⟩]) containerdDetails []
        = (Outcome.panic, [Effect.getPod "prod".toList "web".toList])
      ∧ GetContainerID (podWorld [⟨"sidecar".toList, "containerd://0a1b".toList⟩,
            ⟨"app".toList, "containerd://2c3d".toList⟩]) containerdDetails []
        = (Outcome.ret (Except.ok "2c3d".toList), [Effect.getPod "prod".toList "web".toList]) :=
  ⟨rfl, rfl, rfl, rfl⟩

/-! ## The two shapes of the crio inspect output -/

/-- C14 (amended): for runtime crio and an input that `json.Unmarshal` decodes
without error under the `InfoDetails` shape, `parsePIDFromJSON` returns the
top-level `pid` when it is not zero; otherwise, when the same input also decodes
without error under the wrapper shape, it returns that `info.pid` when it is not
zero and fails when it is zero (an absent member leaves the zero value). Among
the inputs that decode under both shapes it fails exactly when both are zero. -/
theorem parsePIDFromJSON_crio_top_level_then_wrapper (j : GoString) (info : InfoDetails)
    (h1 : Unmarshal decodeInfoDetails j zeroInfoDetails = Except.ok info) :
    (info.PID ≠ 0 → parsePIDFromJSON j "crio".toList = Outcome.ret (Except.ok info.PID))
      ∧ (∀ resp, Unmarshal decodeCrictlInspectResponse j ⟨zeroInfoDetails⟩ = Except.ok resp →
          (info.PID = 0 → resp.Info.PID ≠ 0 →
              parsePIDFromJSON j "crio".toList = Outcome.ret (Except.ok resp.Info.PID))
          ∧ (info.PID = 0 → resp.Info.PID = 0 →
              parsePIDFromJSON j "crio".toList = Outcome.ret (Except.error pidNotFound))
          ∧ ((∃ err, parsePIDFromJSON j "crio".toList = Outcome.ret (Except.error err))
              ↔ info.PID = 0 ∧ resp.Info.PID = 0)) := by
  have hA : info.PID ≠ 0 →
      parsePIDFromJSON j "crio".toList = Outcome.ret (Except.ok info.PID) := by
    intro hp
    rw [parsePIDFromJSON, if_neg (by decide), if_neg (by decide), if_pos rfl, h1]
    simp only
    rw [if_neg hp, checkPID, if_neg hp]
  have hB : ∀ resp, Unmarshal decodeCrictlInspectResponse j ⟨zeroInfoDetails⟩ = Except.ok resp →
      info.PID = 0 → parsePIDFromJSON j "crio".toList = checkPID resp.Info.PID := by
    intro resp h2 hp
    rw [parsePIDFromJSON, if_neg (by decide), if_neg (by decide), if_pos rfl, h1]
    simp only
    rw [if_pos hp, h2]
  refine ⟨hA, ?_⟩
  intro resp h2
  refine ⟨?_, ?_, ?_⟩
  · intro hp hr
    rw [hB resp h2 hp, checkPID, if_neg hr]
  · intro hp hr
    rw [hB resp h2 hp, hr]
    rfl
  · constructor
    · rintro ⟨err, herr⟩
      by_cases hp : info.PID = 0
      · refine ⟨hp, ?_⟩
        by_contra hr
        rw [hB resp h2 hp, checkPID, if_neg hr] at herr
        cases herr
      · rw [hA hp] at herr
        cases herr
    · rintro ⟨hp, hr⟩
      refine ⟨pidNotFound, ?_⟩
      rw [hB resp h2 hp, hr]
      rfl

/-- A top-level `pid` 5 wins over `info.pid` 7; a top-level `pid` 0 falls back to
`info.pid` 7; `info.pid` 0 with no top-level `pid` fails. -/
theorem parsePIDFromJSON_crio_top_level_then_wrapper_witness :
    Unmarshal decodeInfoDetails crioTopPidDoc zeroInfoDetails = Except.ok { zeroInfoDetails with PID := 5 }
      ∧ parsePIDFromJSON crioTopPidDoc "crio".toList = Outcome.ret (Except.ok 5)
      ∧ Unmarshal decodeInfoDetails crioFallbackDoc zeroInfoDetails = Except.ok zeroInfoDetails
      ∧ Unmarshal decodeCrictlInspectResponse crioFallbackDoc ⟨zeroInfoDetails⟩
        = Except.ok ⟨{ zeroInfoDetails with PID := 7 }⟩
      ∧ parsePIDFromJSON crioFallbackDoc "crio".toList = Outcome.ret (Except.ok 7)
      ∧ parsePIDFromJSON crioZeroDoc "crio".toList = Outcome.ret (Except.error pidNotFound) :=
  ⟨rfl,
    (parsePIDFromJSON_crio_top_level_then_wrapper crioTopPidDoc { zeroInfoDetails with PID := 5 } rfl).1 (by decide),
    rfl, rfl,
    ((parsePIDFromJSON_crio_top_level_then_wrapper crioFallbackDoc zeroInfoDetails rfl).2
      ⟨{ zeroInfoDetails with PID := 7 }⟩ rfl).1 rfl (by decide),
    ((parsePIDFromJSON_crio_top_level_then_wrapper crioZeroDoc zeroInfoDetails rfl).2
      ⟨zeroInfoDetails⟩ rfl).2.1 rfl rfl⟩

/-- Two JSON objects on which the crio branch returns the type error of
`json.Unmarshal`: one has `info.pid` 7 and no top-level `pid`, yet 7 is not
returned, because its `info.runtimeSpec` is a number; the other has a top-level
`pid` 5, yet 5 is not returned, because its top-level `runtimeSpec` is a
number. -/
theorem parsePIDFromJSON_crio_object_rejected :
    parseJSON crioMistypedDoc
        = some (JSON.obj [("info".toList, JSON.obj [("pid".toList, JSON.num "7".toList),
            ("runtimeSpec".toList, JSON.num "3".toList)])])
      ∧ parsePIDFromJSON crioMistypedDoc "crio".toList
        = Outcome.ret (Except.error GoError.unmarshalTypeError)
      ∧ parsePIDFromJSON crioMistypedDoc "crio".toList ≠ Outcome.ret (Except.ok 7)
      ∧ parseJSON crioMistypedTopDoc
        = some (JSON.obj [("runtimeSpec".toList, JSON.num "3".toList),
            ("pid".toList, JSON.num "5".toList)])
      ∧ parsePIDFromJSON crioMistypedTopDoc "crio".toList
        = Outcome.ret (Except.error GoError.unmarshalTypeError)
      ∧ parsePIDFromJSON crioMistypedTopDoc "crio".toList ≠ Outcome.ret (Except.ok 5) := by
  have h1 : parsePIDFromJSON crioMistypedDoc "crio".toList
      = Outcome.ret (Except.error GoError.unmarshalTypeError) := rfl
  have h2 : parsePIDFromJSON crioMistypedTopDoc "crio".toList
      = Outcome.ret (Except.error GoError.unmarshalTypeError) := rfl
  refine ⟨rfl, h1, ?_, rfl, h2, ?_⟩
  · rw [h1]
    intro h
    cases h
  · rw [h2]
    intro h
    cases h

end Netem
